import Mathlib

/-!
Verification of mod_spdy: the Apache log message handler.

A shallow embedding of `src/mod_spdy/apache/log_message_handler.cc`.

* C++ `int` values are mathematical integers (`Int`).  The one arithmetic
  operation of the file, the unary minus of `SetLoggingLevel`, is defined by
  C++ only when its result is an `int` (`negDefined`); for the operand
  `INT_MIN` it is a signed overflow.
* `size_t` values are natural numbers reduced modulo `2^64`.
* A `std::string` is the list of its `char`s.
* Calls into code outside the file (the debugger helpers, the stack trace, the
  Apache sink, the setters of `base/logging.h`) are recorded as effects, in
  program order.
-/

namespace ModSpdy

set_option linter.unusedVariables false

/-! ## Constants of the two logging conventions -/

/-- Modelled from the spec: `logging::LOG_INFO` is declared in `base/logging.h`,
which is not under `src/`.  The glossary orders the severities
INFO < WARNING < ERROR < ERROR_REPORT < FATAL and §8 evaluates
`min(INFO, -2) = -2`; the values 0..4 are the ones of that header. -/
def LOG_INFO : Int := 0

/-- Modelled from the spec: `logging::LOG_WARNING` of `base/logging.h`. -/
def LOG_WARNING : Int := 1

/-- Modelled from the spec: `logging::LOG_ERROR` of `base/logging.h`. -/
def LOG_ERROR : Int := 2

/-- Modelled from the spec: `logging::LOG_ERROR_REPORT` of `base/logging.h`. -/
def LOG_ERROR_REPORT : Int := 3

/-- Modelled from the spec: `logging::LOG_FATAL` of `base/logging.h`. -/
def LOG_FATAL : Int := 4

/-- Modelled from the spec: `APLOG_EMERG` is declared in Apache's `http_log.h`,
which is not under `src/`.  The glossary says that higher-priority host levels
are lower-numbered; the values 0..7 are the ones of that header. -/
def APLOG_EMERG : Int := 0

/-- Modelled from the spec: `APLOG_ALERT` of `http_log.h`. -/
def APLOG_ALERT : Int := 1

/-- Modelled from the spec: `APLOG_CRIT` of `http_log.h`. -/
def APLOG_CRIT : Int := 2

/-- Modelled from the spec: `APLOG_ERR` of `http_log.h`. -/
def APLOG_ERR : Int := 3

/-- Modelled from the spec: `APLOG_WARNING` of `http_log.h`. -/
def APLOG_WARNING : Int := 4

/-- Modelled from the spec: `APLOG_NOTICE` of `http_log.h`. -/
def APLOG_NOTICE : Int := 5

/-- Modelled from the spec: `APLOG_INFO` of `http_log.h`. -/
def APLOG_INFO : Int := 6

/-- Modelled from the spec: `APLOG_DEBUG` of `http_log.h`. -/
def APLOG_DEBUG : Int := 7

/-- Modelled from the spec: `APR_SUCCESS` of `apr_errno.h`, the fixed
"success" status code handed to the host sink. -/
def APR_SUCCESS : Int := 0

/-- The smallest value of a 32-bit `int`. -/
def INT_MIN : Int := -2147483648

/-- The constant `kMaxInt = std::numeric_limits<int>::max()` (line 38). -/
def kMaxInt : Int := 2147483647

/-- Membership in the range of a 32-bit `int`. -/
def IsInt (x : Int) : Prop := INT_MIN ≤ x ∧ x ≤ kMaxInt

instance (x : Int) : Decidable (IsInt x) := by
  unfold IsInt; exact inferInstance

/-- Reduction of an integer to the 32-bit two's-complement range. -/
def wrapInt (x : Int) : Int := (x + 2147483648) % 4294967296 - 2147483648

/-- Whether the unary minus of an `int` is defined by C++: its result is an
`int`.  It is not for `INT_MIN`, a signed overflow. -/
def negDefined (x : Int) : Prop := IsInt (-x)

instance (x : Int) : Decidable (negDefined x) := by
  unfold negDefined; exact inferInstance

/-- The unary minus of an `int`.  Where it is defined (`negDefined`) the value is
the negation.  For `INT_MIN` the behaviour is undefined: the value given here
is the one of a build in which the negation wraps; an optimising build may
compute another one, and no theorem of this file depends on it. -/
def negInt (x : Int) : Int := wrapInt (-x)

/-- The number of values of `size_t` (64 bits). -/
def SIZE_MOD : Nat := 18446744073709551616

/-- Subtraction of two `size_t` values, modulo `2^64`. -/
def subSize (a b : Nat) : Nat := (a % SIZE_MOD + (SIZE_MOD - b % SIZE_MOD)) % SIZE_MOD

/-! ## The severity mapper -/

/-- The function `GetApacheLogLevel` (lines 41-60): a `switch` over the
severity with a `default` label. -/
def GetApacheLogLevel (severity : Int) : Int :=
  if severity = LOG_INFO then APLOG_NOTICE
  else if severity = LOG_WARNING then APLOG_WARNING
  else if severity = LOG_ERROR then APLOG_ERR
  else if severity = LOG_ERROR_REPORT then APLOG_CRIT
  else if severity = LOG_FATAL then APLOG_ALERT
  else APLOG_NOTICE

/-! ## The effects of the file on its collaborators -/

/-- The source marker `APLOG_MARK` of the sink call: the file and line of the
call itself (line 85), never the `file` and `line` the handler receives. -/
def APLOG_MARK : String × Nat := ("log_message_handler.cc", 85)

/-- One call `ap_log_perror(APLOG_MARK, level, status, pool, fmt, args...)` of
the host sink.  An argument `message.c_str()` is recorded in `args` as the
bytes of `message`, the buffer the pointer designates; the text a `%s`
conversion reads from it is `SinkCall.text`. -/
structure SinkCall where
  mark : String × Nat
  level : Int
  status : Int
  pool : Nat
  fmt : String
  args : List (List Char)
deriving DecidableEq, Repr

/-- The NUL byte, which ends a C string. -/
def NUL : Char := Char.ofNat 0

/-- The C string that the pointer `s.c_str()` designates: the bytes of `s`
before its first NUL. -/
def c_str (s : List Char) : List Char := s.takeWhile fun c => decide (c ≠ NUL)

/-- The texts the host sink reads from the arguments of a call: each argument
is a `const char*` read by a `%s` conversion, up to its first NUL. -/
def SinkCall.text (c : SinkCall) : List (List Char) := c.args.map c_str

/-- A call into code outside the file. -/
inductive Effect where
  /-- The call `base::debug::BreakDebugger()`. -/
  | BreakDebugger
  /-- The construction of a `base::debug::StackTrace` and its `OutputToStream`. -/
  | StackTrace
  /-- The call `ap_log_perror(...)`. -/
  | ap_log_perror (call : SinkCall)
  /-- The call `logging::SetLogItems(pid, tid, timestamp, tickcount)`. -/
  | SetLogItems (pid tid timestamp tickcount : Bool)
  /-- The call `logging::SetLogMessageHandler(&LogMessageHandler)`. -/
  | SetLogMessageHandler
  /-- The call `logging::SetMinLogLevel(level)`. -/
  | SetMinLogLevel (level : Int)
deriving DecidableEq, Repr

/-- How an invocation of the handler ends. -/
inductive Outcome where
  /-- The handler executed `return value;`. -/
  | returned (value : Bool)
  /-- A call of `BreakDebugger` did not return: the process stopped there. -/
  | trapped
  /-- The handler read `message[i]` at an index `i` outside the message:
  the behaviour of the program is undefined from there on. -/
  | undefined
deriving DecidableEq, Repr

/-- The effects of an invocation, in program order, and its outcome. -/
structure Run where
  effects : List Effect
  outcome : Outcome
deriving DecidableEq, Repr

/-- What the handler observes of the process it runs in: the answer of
`base::debug::BeingDebugged()`, the text `trace.OutputToStream` writes, and
whether the `k`-th call of `BreakDebugger` (counted from 0) returns. -/
structure Env where
  BeingDebugged : Bool
  stackTrace : List Char
  breakReturns : Nat → Bool

/-- The mutable globals of the anonymous namespace (lines 36-39); a pool
pointer is its address, `NULL` is 0. -/
structure Globals where
  log_pool : Nat
  log_level_cutoff : Int
deriving DecidableEq, Repr

/-- The initial values of the globals: `log_pool = NULL`,
`log_level_cutoff = kMaxInt`. -/
def Globals.initial : Globals := ⟨0, kMaxInt⟩

/-- The constant `kShowProcessId` (line 98). -/
def kShowProcessId : Bool := true

/-- The constant `kShowThreadId` (line 99). -/
def kShowThreadId : Bool := true

/-- The constant `kShowTimestamp` (line 103). -/
def kShowTimestamp : Bool := false

/-- The constant `kShowTickcount` (line 107). -/
def kShowTickcount : Bool := false

/-- The sink calls among the effects of a run, in order. -/
def sinkCalls (r : Run) : List SinkCall :=
  r.effects.filterMap fun e =>
    match e with
    | Effect.ap_log_perror c => some c
    | _ => none

/-- A run preceded by the effects `pre`. -/
def Run.after (pre : List Effect) (r : Run) : Run := ⟨pre ++ r.effects, r.outcome⟩

/-! ## The message handler -/

/-- The index `message.length() - 1` of line 79, in `size_t` arithmetic. -/
def lastIndex (message : List Char) : Nat := subSize message.length 1

/-- Lines 78-82: the read `message[last_msg_character_index]` and the
`resize`.  The result is `none` when the index read is not a position of the
message. -/
def trimNewline (message : List Char) : Option (List Char) :=
  let last_msg_character_index := lastIndex message
  match message[last_msg_character_index]? with
  | none => none
  | some c =>
    if c = '\n' then some (message.take last_msg_character_index) else some message

/-- Lines 66-76: the message the trim step receives.  The stack trace is
appended when the severity is `LOG_FATAL` and no debugger is attached. -/
def augmentedMessage (env : Env) (severity : Int) (str : List Char) : List Char :=
  if severity = LOG_FATAL ∧ env.BeingDebugged = false then str ++ env.stackTrace else str

/-- The sink call of lines 85-86 for a mapped level and a trimmed message; the
argument `message.c_str()` is recorded as in `SinkCall`. -/
def sinkCallOf (g : Globals) (this_log_level : Int) (message : List Char) : SinkCall :=
  ⟨APLOG_MARK, this_log_level, APR_SUCCESS, g.log_pool, "%s", [message]⟩

/-- Lines 84-94: the forwarding test, the sink call, the final
`BreakDebugger` of a fatal message and `return true`.  `breaks` counts the
calls of `BreakDebugger` made before. -/
def forwardAndFinish (env : Env) (g : Globals) (severity this_log_level : Int)
    (breaks : Nat) (message : List Char) : Run :=
  let forwarded : List Effect :=
    if this_log_level ≤ g.log_level_cutoff ∨ g.log_level_cutoff = kMaxInt then
      [Effect.ap_log_perror (sinkCallOf g this_log_level message)]
    else []
  if severity = LOG_FATAL then
    ⟨forwarded ++ [Effect.BreakDebugger],
      if env.breakReturns breaks = true then Outcome.returned true else Outcome.trapped⟩
  else ⟨forwarded, Outcome.returned true⟩

/-- Lines 78-94: the trim step followed by the rest of the handler. -/
def trimAndForward (env : Env) (g : Globals) (severity this_log_level : Int)
    (breaks : Nat) (message : List Char) : Run :=
  match trimNewline message with
  | none => ⟨[], Outcome.undefined⟩
  | some trimmed => forwardAndFinish env g severity this_log_level breaks trimmed

/-- The function `LogMessageHandler` (lines 62-95). -/
def LogMessageHandler (env : Env) (g : Globals) (severity : Int) (file : String)
    (line : Int) (message_start : Nat) (str : List Char) : Run :=
  let this_log_level := GetApacheLogLevel severity
  let message := str
  if severity = LOG_FATAL then
    if env.BeingDebugged = true then
      if env.breakReturns 0 = true then
        Run.after [Effect.BreakDebugger]
          (trimAndForward env g severity this_log_level 1 message)
      else ⟨[Effect.BreakDebugger], Outcome.trapped⟩
    else
      Run.after [Effect.StackTrace]
        (trimAndForward env g severity this_log_level 0 (message ++ env.stackTrace))
  else trimAndForward env g severity this_log_level 0 message

/-! ## The message handler in a build without bounds checks -/

/-- The function `InstallLogMessageHandler` (lines 113-120): the new globals
and the calls made. -/
def InstallLogMessageHandler (pool : Nat) (g : Globals) : Globals × List Effect :=
  (⟨pool, g.log_level_cutoff⟩,
    [Effect.SetLogItems kShowProcessId kShowThreadId kShowTimestamp kShowTickcount,
     Effect.SetLogMessageHandler])

/-- The function `SetLoggingLevel` (lines 122-144): the calls made.  The
globals of the file are not touched.  The unary minus of line 141 is evaluated
in the last row only; it is defined when `negDefined vlog_level`. -/
def SetLoggingLevel (apache_log_level vlog_level : Int) : List Effect :=
  if apache_log_level = APLOG_EMERG ∨ apache_log_level = APLOG_ALERT then
    [Effect.SetMinLogLevel LOG_FATAL]
  else if apache_log_level = APLOG_CRIT then
    [Effect.SetMinLogLevel LOG_ERROR_REPORT]
  else if apache_log_level = APLOG_ERR then
    [Effect.SetMinLogLevel LOG_ERROR]
  else if apache_log_level = APLOG_WARNING then
    [Effect.SetMinLogLevel LOG_WARNING]
  else
    [Effect.SetMinLogLevel (min LOG_INFO (negInt vlog_level))]

/-! ## The process-wide state and its operations -/

/-- Modelled from the spec: the globals of the generic logging subsystem behind
the setters of `base/logging.h`, which is not under `src/`.  §6 names "a global
minimum log level setter the Synchronizer writes to", "a global log item flags
setter invoked once at installation with the four boolean display flags" and
the registered callback. -/
structure Logging where
  min_log_level : Int
  log_items : Bool × Bool × Bool × Bool
  handler_registered : Bool
deriving DecidableEq, Repr

/-- Modelled from the spec: what one call does to the globals of the logging
subsystem.  Each setter stores its arguments; the other calls leave the
globals as they are. -/
def Logging.apply (l : Logging) : Effect → Logging
  | Effect.SetLogItems pid tid timestamp tickcount =>
    ⟨l.min_log_level, (pid, tid, timestamp, tickcount), l.handler_registered⟩
  | Effect.SetLogMessageHandler => ⟨l.min_log_level, l.log_items, true⟩
  | Effect.SetMinLogLevel level => ⟨level, l.log_items, l.handler_registered⟩
  | Effect.BreakDebugger => l
  | Effect.StackTrace => l
  | Effect.ap_log_perror _ => l

/-- The globals of the logging subsystem after a sequence of calls. -/
def Logging.applyAll (l : Logging) (calls : List Effect) : Logging :=
  calls.foldl Logging.apply l

/-- The state of the process: the globals of the file and the globals of the
logging subsystem. -/
structure State where
  globals : Globals
  logging : Logging
deriving DecidableEq, Repr

/-- A call of one of the three functions of the file. -/
inductive Op where
  /-- The call `InstallLogMessageHandler(pool)`. -/
  | Install (pool : Nat)
  /-- The call `SetLoggingLevel(apache_log_level, vlog_level)`. -/
  | SetLevel (apache_log_level vlog_level : Int)
  /-- An invocation of `LogMessageHandler` in the environment `env`. -/
  | Handle (env : Env) (severity : Int) (file : String) (line : Int)
      (message_start : Nat) (str : List Char)

/-- The state after one call.  `LogMessageHandler` writes no global; the
process has a next state only when the handler returns. -/
def step (s : State) : Op → Option State
  | Op.Install pool =>
    some ⟨(InstallLogMessageHandler pool s.globals).1,
      s.logging.applyAll (InstallLogMessageHandler pool s.globals).2⟩
  | Op.SetLevel apache_log_level vlog_level =>
    some ⟨s.globals, s.logging.applyAll (SetLoggingLevel apache_log_level vlog_level)⟩
  | Op.Handle env severity file line message_start str =>
    match (LogMessageHandler env s.globals severity file line message_start str).outcome with
    | Outcome.returned _ => some s
    | Outcome.trapped => none
    | Outcome.undefined => none

/-- The state after a sequence of calls, when every one of them returns. -/
def runOps (s : State) : List Op → Option State
  | [] => some s
  | op :: ops =>
    match step s op with
    | some next => runOps next ops
    | none => none

/-- The states of a process that started with the initial globals of the file
and the logging globals `l0`. -/
def Reachable (l0 : Logging) (s : State) : Prop :=
  ∃ ops : List Op, runOps ⟨Globals.initial, l0⟩ ops = some s

/-! ## Theorems -/

/-- C1: `GetApacheLogLevel` equals the table of §4.1 on the five named
severities and returns `APLOG_NOTICE` for every other integer. -/
theorem GetApacheLogLevel_table :
    GetApacheLogLevel LOG_INFO = APLOG_NOTICE ∧
    GetApacheLogLevel LOG_WARNING = APLOG_WARNING ∧
    GetApacheLogLevel LOG_ERROR = APLOG_ERR ∧
    GetApacheLogLevel LOG_ERROR_REPORT = APLOG_CRIT ∧
    GetApacheLogLevel LOG_FATAL = APLOG_ALERT ∧
    ∀ severity : Int,
      (severity ≠ LOG_INFO ∧ severity ≠ LOG_WARNING ∧ severity ≠ LOG_ERROR ∧
        severity ≠ LOG_ERROR_REPORT ∧ severity ≠ LOG_FATAL) →
      GetApacheLogLevel severity = APLOG_NOTICE := by
  refine ⟨by decide, by decide, by decide, by decide, by decide, ?_⟩
  intro severity h
  obtain ⟨h0, h1, h2, h3, h4⟩ := h
  simp [GetApacheLogLevel, h0, h1, h2, h3, h4]

/-- C1 (witness): the default label at a verbose severity, -1, and at a value
above LOG_FATAL, 5. -/
theorem GetApacheLogLevel_table_witness :
    GetApacheLogLevel (-1) = APLOG_NOTICE ∧ GetApacheLogLevel 5 = APLOG_NOTICE :=
  ⟨GetApacheLogLevel_table.2.2.2.2.2 (-1) (by decide),
    GetApacheLogLevel_table.2.2.2.2.2 5 (by decide)⟩

/-- C2: in the rows EMERG/ALERT, CRIT, ERR and WARNING, `SetLoggingLevel`
makes the one call `SetMinLogLevel` with LOG_FATAL, LOG_ERROR_REPORT,
LOG_ERROR and LOG_WARNING, whatever the verbosity number is. -/
theorem SetLoggingLevel_named_rows (v : Int) :
    SetLoggingLevel APLOG_EMERG v = [Effect.SetMinLogLevel LOG_FATAL] ∧
    SetLoggingLevel APLOG_ALERT v = [Effect.SetMinLogLevel LOG_FATAL] ∧
    SetLoggingLevel APLOG_CRIT v = [Effect.SetMinLogLevel LOG_ERROR_REPORT] ∧
    SetLoggingLevel APLOG_ERR v = [Effect.SetMinLogLevel LOG_ERROR] ∧
    SetLoggingLevel APLOG_WARNING v = [Effect.SetMinLogLevel LOG_WARNING] ∧
    ∀ w : Int,
      SetLoggingLevel APLOG_EMERG v = SetLoggingLevel APLOG_EMERG w ∧
      SetLoggingLevel APLOG_ALERT v = SetLoggingLevel APLOG_ALERT w ∧
      SetLoggingLevel APLOG_CRIT v = SetLoggingLevel APLOG_CRIT w ∧
      SetLoggingLevel APLOG_ERR v = SetLoggingLevel APLOG_ERR w ∧
      SetLoggingLevel APLOG_WARNING v = SetLoggingLevel APLOG_WARNING w := by
  refine ⟨rfl, rfl, rfl, rfl, rfl, fun w => ⟨rfl, rfl, rfl, rfl, rfl⟩⟩

/-! ### The trim step -/

/-- On a non-empty string shorter than `2^64` the index of line 79 is the
position of the last character. -/
theorem lastIndex_of_ne_nil (message : List Char) (hne : message ≠ [])
    (hlen : message.length < SIZE_MOD) : lastIndex message = message.length - 1 := by
  have hpos : 0 < message.length := List.length_pos.mpr hne
  unfold lastIndex subSize
  unfold SIZE_MOD at *
  omega

/-- The trim step reads outside the empty message. -/
theorem trimNewline_nil : trimNewline [] = none := by decide

/-- The trim step removes the final newline of a message that has one. -/
theorem trimNewline_append_newline (body : List Char)
    (hlen : (body ++ ['\n']).length < SIZE_MOD) :
    trimNewline (body ++ ['\n']) = some body := by
  have hidx : lastIndex (body ++ ['\n']) = body.length := by
    rw [lastIndex_of_ne_nil _ (by simp) hlen]; simp
  simp [trimNewline, hidx]

/-- The trim step leaves a non-empty message without final newline as it is. -/
theorem trimNewline_of_getLast (message : List Char) (hne : message ≠ [])
    (hlen : message.length < SIZE_MOD) (hlast : message.getLast hne ≠ '\n') :
    trimNewline message = some message := by
  have hidx : lastIndex message = message.length - 1 := lastIndex_of_ne_nil _ hne hlen
  have hpos : 0 < message.length := List.length_pos.mpr hne
  have hget : message[message.length - 1]? = some (message.getLast hne) := by
    rw [List.getLast_eq_getElem]
    exact List.getElem?_eq_getElem (by omega)
  simp [trimNewline, hidx, hget, hlast]

/-- The trim step is defined on every non-empty message shorter than `2^64`,
and its result is the message or the message without its final newline. -/
theorem trimNewline_of_ne_nil (message : List Char) (hne : message ≠ [])
    (hlen : message.length < SIZE_MOD) :
    ∃ trimmed, trimNewline message = some trimmed ∧
      (trimmed = message ∨ message = trimmed ++ ['\n']) := by
  have hsplit := List.dropLast_append_getLast hne
  by_cases hlast : message.getLast hne = '\n'
  · rw [hlast] at hsplit
    refine ⟨message.dropLast, ?_, Or.inr hsplit.symm⟩
    have hlen2 : (message.dropLast ++ ['\n']).length < SIZE_MOD := by rw [hsplit]; exact hlen
    have htrim := trimNewline_append_newline message.dropLast hlen2
    rw [hsplit] at htrim
    exact htrim
  · exact ⟨message, trimNewline_of_getLast message hne hlen hlast, Or.inl rfl⟩

/-! ### The shape of a run of the handler -/

/-- The sink calls of lines 84-94. -/
theorem sinkCalls_forwardAndFinish (env : Env) (g : Globals) (severity level : Int)
    (breaks : Nat) (message : List Char) :
    sinkCalls (forwardAndFinish env g severity level breaks message) =
      if level ≤ g.log_level_cutoff ∨ g.log_level_cutoff = kMaxInt then
        [sinkCallOf g level message]
      else [] := by
  unfold forwardAndFinish sinkCalls
  by_cases hfatal : severity = LOG_FATAL <;>
    by_cases htest : level ≤ g.log_level_cutoff ∨ g.log_level_cutoff = kMaxInt <;>
    simp [hfatal, htest]

/-- Effects that are not sink calls add no sink call in front of a run. -/
theorem sinkCalls_after_BreakDebugger (r : Run) :
    sinkCalls (Run.after [Effect.BreakDebugger] r) = sinkCalls r := by
  simp [sinkCalls, Run.after]

/-- The stack trace capture adds no sink call in front of a run. -/
theorem sinkCalls_after_StackTrace (r : Run) :
    sinkCalls (Run.after [Effect.StackTrace] r) = sinkCalls r := by
  simp [sinkCalls, Run.after]

/-- A run of the handler that reaches the forwarding step: the message the
trim step receives is trimmed to `trimmed`, and the breakpoint of a debugged
fatal message returns. -/
theorem LogMessageHandler_reaching (env : Env) (g : Globals) (severity : Int)
    (file : String) (line : Int) (message_start : Nat) (str trimmed : List Char)
    (htrim : trimNewline (augmentedMessage env severity str) = some trimmed)
    (hbreak : severity = LOG_FATAL → env.BeingDebugged = true → env.breakReturns 0 = true) :
    LogMessageHandler env g severity file line message_start str =
      Run.after
        (if severity = LOG_FATAL then
          (if env.BeingDebugged = true then [Effect.BreakDebugger] else [Effect.StackTrace])
         else [])
        (forwardAndFinish env g severity (GetApacheLogLevel severity)
          (if env.BeingDebugged = true then 1 else 0) trimmed) := by
  by_cases hfatal : severity = LOG_FATAL
  · by_cases hdbg : env.BeingDebugged = true
    · have hret := hbreak hfatal hdbg
      have hmsg : trimNewline str = some trimmed := by
        simpa [augmentedMessage, hfatal, hdbg] using htrim
      simp [LogMessageHandler, trimAndForward, hfatal, hdbg, hret, hmsg]
    · have hdbg2 : env.BeingDebugged = false := by simpa using hdbg
      have hmsg : trimNewline (str ++ env.stackTrace) = some trimmed := by
        simpa [augmentedMessage, hfatal, hdbg2] using htrim
      simp [LogMessageHandler, trimAndForward, hfatal, hdbg2, hmsg]
  · have hmsg : trimNewline str = some trimmed := by
      simpa [augmentedMessage, hfatal] using htrim
    simp [LogMessageHandler, trimAndForward, hfatal, hmsg, forwardAndFinish, Run.after]

/-- The sink calls of a run of the handler that reaches the forwarding step. -/
theorem sinkCalls_LogMessageHandler (env : Env) (g : Globals) (severity : Int)
    (file : String) (line : Int) (message_start : Nat) (str trimmed : List Char)
    (htrim : trimNewline (augmentedMessage env severity str) = some trimmed)
    (hbreak : severity = LOG_FATAL → env.BeingDebugged = true → env.breakReturns 0 = true) :
    sinkCalls (LogMessageHandler env g severity file line message_start str) =
      if GetApacheLogLevel severity ≤ g.log_level_cutoff ∨ g.log_level_cutoff = kMaxInt then
        [sinkCallOf g (GetApacheLogLevel severity) trimmed]
      else [] := by
  rw [LogMessageHandler_reaching env g severity file line message_start str trimmed htrim hbreak]
  by_cases hfatal : severity = LOG_FATAL
  · by_cases hdbg : env.BeingDebugged = true
    · simp only [hfatal, hdbg, if_true]
      rw [sinkCalls_after_BreakDebugger, sinkCalls_forwardAndFinish]
    · have hdbg2 : env.BeingDebugged = false := by simpa using hdbg
      simp [hfatal, hdbg2, sinkCalls_after_StackTrace, sinkCalls_forwardAndFinish]
  · simp only [hfatal, if_false]
    have : Run.after [] (forwardAndFinish env g severity (GetApacheLogLevel severity)
        (if env.BeingDebugged = true then 1 else 0) trimmed) =
        forwardAndFinish env g severity (GetApacheLogLevel severity)
        (if env.BeingDebugged = true then 1 else 0) trimmed := by
      simp [Run.after]
    rw [this, sinkCalls_forwardAndFinish]

/-! ### The level synchroniser: the default row -/

/-- An `int` has a defined negation exactly when it is not `INT_MIN`. -/
theorem negDefined_iff (v : Int) (hv : IsInt v) : negDefined v ↔ v ≠ INT_MIN := by
  unfold negDefined IsInt INT_MIN kMaxInt at *
  constructor
  · intro h; omega
  · intro h; omega

/-- Where the unary minus of an `int` is defined, its value is the negation. -/
theorem negInt_eq_neg (v : Int) (hv : IsInt v) (hmin : v ≠ INT_MIN) : negInt v = -v := by
  unfold IsInt INT_MIN kMaxInt at hv
  unfold INT_MIN at hmin
  unfold negInt wrapInt
  omega

/-- The default row where line 141 is defined: for every host level outside the
rows EMERG, ALERT, CRIT, ERR and WARNING and every `int` verbosity `v` other
than `INT_MIN`, `SetLoggingLevel` makes the one call
`SetMinLogLevel(min(LOG_INFO, -v))`; for NOTICE and `v = 2` the installed
minimum is -2. -/
theorem SetLoggingLevel_default_row (h v : Int)
    (hrow : h ≠ APLOG_EMERG ∧ h ≠ APLOG_ALERT ∧ h ≠ APLOG_CRIT ∧ h ≠ APLOG_ERR ∧
      h ≠ APLOG_WARNING)
    (hv : IsInt v) (hmin : v ≠ INT_MIN) :
    SetLoggingLevel h v = [Effect.SetMinLogLevel (min LOG_INFO (-v))] ∧
    SetLoggingLevel APLOG_NOTICE 2 = [Effect.SetMinLogLevel (-2)] := by
  obtain ⟨h0, h1, h2, h3, h4⟩ := hrow
  refine ⟨?_, by decide⟩
  simp [SetLoggingLevel, h0, h1, h2, h3, h4, negInt_eq_neg v hv hmin]

/-- C3 (failing input): at host level NOTICE and verbosity `INT_MIN`, an `int`,
the last row of the switch is taken and line 141 negates `INT_MIN`: the result,
2147483648, is no `int`, a signed overflow for which C++ defines no value.
Every other `int` has a defined negation. -/
theorem SetLoggingLevel_default_row_overflow :
    IsInt INT_MIN ∧ ¬ negDefined INT_MIN ∧ -INT_MIN = kMaxInt + 1 ∧
    SetLoggingLevel APLOG_NOTICE INT_MIN =
      [Effect.SetMinLogLevel (min LOG_INFO (negInt INT_MIN))] ∧
    ∀ v : Int, IsInt v → (negDefined v ↔ v ≠ INT_MIN) :=
  ⟨by decide, by decide, by decide, rfl, negDefined_iff⟩

/-! ### The forwarding test -/

/-- C4 (amended): for a finite cutoff, every severity and every message that
the trim step receives non-empty, when the breakpoint of a debugged fatal
message returns, the handler calls the host sink if and only if
`GetApacheLogLevel(severity) <= cutoff`, at most once, and makes no sink call
otherwise. -/
theorem LogMessageHandler_finite_cutoff (env : Env) (g : Globals) (severity : Int)
    (file : String) (line : Int) (message_start : Nat) (str : List Char)
    (hfinite : g.log_level_cutoff ≠ kMaxInt)
    (hne : augmentedMessage env severity str ≠ [])
    (hlen : (augmentedMessage env severity str).length < SIZE_MOD)
    (hbreak : severity = LOG_FATAL → env.BeingDebugged = true → env.breakReturns 0 = true) :
    (sinkCalls (LogMessageHandler env g severity file line message_start str) ≠ [] ↔
      GetApacheLogLevel severity ≤ g.log_level_cutoff) ∧
    (¬ GetApacheLogLevel severity ≤ g.log_level_cutoff →
      sinkCalls (LogMessageHandler env g severity file line message_start str) = []) ∧
    (sinkCalls (LogMessageHandler env g severity file line message_start str)).length ≤ 1 := by
  obtain ⟨trimmed, htrim, -⟩ := trimNewline_of_ne_nil _ hne hlen
  rw [sinkCalls_LogMessageHandler env g severity file line message_start str trimmed htrim hbreak]
  by_cases hle : GetApacheLogLevel severity ≤ g.log_level_cutoff <;> simp [hle, hfinite]

/-- C4 (witness): a warning `"w"` under the finite cutoff `APLOG_ERR`. -/
theorem LogMessageHandler_finite_cutoff_witness :
    (⟨0, APLOG_ERR⟩ : Globals).log_level_cutoff ≠ kMaxInt ∧
    augmentedMessage ⟨false, [], fun _ => false⟩ LOG_WARNING ['w'] ≠ [] ∧
    (augmentedMessage ⟨false, [], fun _ => false⟩ LOG_WARNING ['w']).length < SIZE_MOD ∧
    (sinkCalls (LogMessageHandler ⟨false, [], fun _ => false⟩ ⟨0, APLOG_ERR⟩ LOG_WARNING
        "file.cc" 1 0 ['w']) ≠ [] ↔
      GetApacheLogLevel LOG_WARNING ≤ (⟨0, APLOG_ERR⟩ : Globals).log_level_cutoff) ∧
    (¬ GetApacheLogLevel LOG_WARNING ≤ (⟨0, APLOG_ERR⟩ : Globals).log_level_cutoff →
      sinkCalls (LogMessageHandler ⟨false, [], fun _ => false⟩ ⟨0, APLOG_ERR⟩ LOG_WARNING
        "file.cc" 1 0 ['w']) = []) ∧
    (sinkCalls (LogMessageHandler ⟨false, [], fun _ => false⟩ ⟨0, APLOG_ERR⟩ LOG_WARNING
        "file.cc" 1 0 ['w'])).length ≤ 1 :=
  ⟨by decide, by decide, by decide,
    LogMessageHandler_finite_cutoff ⟨false, [], fun _ => false⟩ ⟨0, APLOG_ERR⟩ LOG_WARNING
      "file.cc" 1 0 ['w'] (by decide) (by decide) (by decide) (by decide)⟩

/-- C4 (counterexample): under the finite cutoff `APLOG_DEBUG`, a fatal message
`"x"` with a debugger attached whose breakpoint does not return: the mapped
level is below the cutoff and the host sink is not called. -/
theorem LogMessageHandler_finite_cutoff_breakpoint :
    APLOG_DEBUG ≠ kMaxInt ∧
    ¬ (sinkCalls (LogMessageHandler ⟨true, [], fun _ => false⟩ ⟨0, APLOG_DEBUG⟩ LOG_FATAL
          "file.cc" 1 0 ['x']) ≠ [] ↔
        GetApacheLogLevel LOG_FATAL ≤ APLOG_DEBUG) := by
  decide

/-- C5 (amended): with the cutoff at the unset sentinel, for every severity and
every message that the trim step receives non-empty, when the breakpoint of a
debugged fatal message returns, the handler calls the host sink exactly once,
with the mapped level and the trimmed message. -/
theorem LogMessageHandler_unset_cutoff (env : Env) (g : Globals) (severity : Int)
    (file : String) (line : Int) (message_start : Nat) (str : List Char)
    (hunset : g.log_level_cutoff = kMaxInt)
    (hne : augmentedMessage env severity str ≠ [])
    (hlen : (augmentedMessage env severity str).length < SIZE_MOD)
    (hbreak : severity = LOG_FATAL → env.BeingDebugged = true → env.breakReturns 0 = true) :
    (sinkCalls (LogMessageHandler env g severity file line message_start str)).length = 1 ∧
    ∃ trimmed, trimNewline (augmentedMessage env severity str) = some trimmed ∧
      sinkCalls (LogMessageHandler env g severity file line message_start str) =
        [sinkCallOf g (GetApacheLogLevel severity) trimmed] := by
  obtain ⟨trimmed, htrim, -⟩ := trimNewline_of_ne_nil _ hne hlen
  have hcalls :=
    sinkCalls_LogMessageHandler env g severity file line message_start str trimmed htrim hbreak
  simp only [hunset, or_true, if_true] at hcalls
  exact ⟨by rw [hcalls]; rfl, trimmed, htrim, hcalls⟩

/-- C5 (witness): a verbose message (severity -3) `"v\n"` with the cutoff
unset. -/
theorem LogMessageHandler_unset_cutoff_witness :
    Globals.initial.log_level_cutoff = kMaxInt ∧
    augmentedMessage ⟨false, [], fun _ => false⟩ (-3) ['v', '\n'] ≠ [] ∧
    (augmentedMessage ⟨false, [], fun _ => false⟩ (-3) ['v', '\n']).length < SIZE_MOD ∧
    (sinkCalls (LogMessageHandler ⟨false, [], fun _ => false⟩ Globals.initial (-3)
        "file.cc" 1 0 ['v', '\n'])).length = 1 ∧
    ∃ trimmed, trimNewline (augmentedMessage ⟨false, [], fun _ => false⟩ (-3) ['v', '\n']) =
        some trimmed ∧
      sinkCalls (LogMessageHandler ⟨false, [], fun _ => false⟩ Globals.initial (-3)
        "file.cc" 1 0 ['v', '\n']) =
        [sinkCallOf Globals.initial (GetApacheLogLevel (-3)) trimmed] :=
  ⟨by decide, by decide, by decide,
    LogMessageHandler_unset_cutoff ⟨false, [], fun _ => false⟩ Globals.initial (-3)
      "file.cc" 1 0 ['v', '\n'] (by decide) (by decide) (by decide) (by decide)⟩

/-- C5 (counterexample): with the cutoff unset, a fatal message `"x"` with a
debugger attached whose breakpoint does not return is not forwarded: the only
effect is the breakpoint. -/
theorem LogMessageHandler_unset_cutoff_breakpoint :
    Globals.initial.log_level_cutoff = kMaxInt ∧
    LogMessageHandler ⟨true, [], fun _ => false⟩ Globals.initial LOG_FATAL "file.cc" 1 0 ['x'] =
      ⟨[Effect.BreakDebugger], Outcome.trapped⟩ ∧
    (sinkCalls (LogMessageHandler ⟨true, [], fun _ => false⟩ Globals.initial LOG_FATAL
      "file.cc" 1 0 ['x'])).length ≠ 1 := by
  decide

/-! ### The trim step inside the handler -/

/-- The C string of a byte sequence without NUL is the whole sequence. -/
theorem c_str_of_not_mem (s : List Char) (hnul : NUL ∉ s) : c_str s = s := by
  unfold c_str
  rw [List.takeWhile_eq_self_iff]
  intro c hc
  have hne : c ≠ NUL := fun h => hnul (h ▸ hc)
  simpa using hne

/-- The C string of a byte sequence is a prefix of it that holds no NUL. -/
theorem c_str_prefix (s : List Char) : c_str s <+: s ∧ NUL ∉ c_str s := by
  unfold c_str
  refine ⟨List.takeWhile_prefix _, ?_⟩
  intro hmem
  have h := List.mem_takeWhile_imp hmem
  simp at h

/-- A non-fatal message that ends in a newline: the run is the forwarding test
on the message without its last byte, followed by `return true`. -/
theorem LogMessageHandler_nonfatal_newline (env : Env) (g : Globals) (severity : Int)
    (file : String) (line : Int) (message_start : Nat) (body : List Char)
    (hlen : (body ++ ['\n']).length < SIZE_MOD) (hfatal : severity ≠ LOG_FATAL) :
    LogMessageHandler env g severity file line message_start (body ++ ['\n']) =
      ⟨if GetApacheLogLevel severity ≤ g.log_level_cutoff ∨ g.log_level_cutoff = kMaxInt then
          [Effect.ap_log_perror (sinkCallOf g (GetApacheLogLevel severity) body)]
        else [],
        Outcome.returned true⟩ := by
  have htrim := trimNewline_append_newline body hlen
  simp [LogMessageHandler, trimAndForward, forwardAndFinish, hfatal, htrim]

/-- C6 (amended): for a message `body ++ "\n"` and a severity for which no stack
trace is appended, every sink call of the handler carries the mapped level and
the argument `body`, the message without its last byte and with every other
byte unchanged; the text the sink reads from that argument is `body` up to its
first NUL, hence `body` itself when it holds no NUL; for a non-fatal severity
the run is the forwarding test alone followed by `return true`; `"disk full\n"`
at LOG_ERROR with the cutoff unset forwards `"disk full"` at APLOG_ERR and
returns. -/
theorem LogMessageHandler_trims_newline (env : Env) (g : Globals) (severity : Int)
    (file : String) (line : Int) (message_start : Nat) (body : List Char)
    (hlen : (body ++ ['\n']).length < SIZE_MOD)
    (hnotrace : severity ≠ LOG_FATAL ∨ env.BeingDebugged = true) :
    (∀ c ∈ sinkCalls (LogMessageHandler env g severity file line message_start (body ++ ['\n'])),
      c.args = [body] ∧ c.text = [c_str body] ∧ c.level = GetApacheLogLevel severity) ∧
    (NUL ∉ body →
      ∀ c ∈ sinkCalls (LogMessageHandler env g severity file line message_start
          (body ++ ['\n'])),
        c.text = [body]) ∧
    (severity ≠ LOG_FATAL →
      LogMessageHandler env g severity file line message_start (body ++ ['\n']) =
        ⟨if GetApacheLogLevel severity ≤ g.log_level_cutoff ∨ g.log_level_cutoff = kMaxInt then
            [Effect.ap_log_perror (sinkCallOf g (GetApacheLogLevel severity) body)]
          else [],
          Outcome.returned true⟩) ∧
    LogMessageHandler env Globals.initial LOG_ERROR file line message_start
        "disk full\n".toList =
      ⟨[Effect.ap_log_perror
          ⟨APLOG_MARK, APLOG_ERR, APR_SUCCESS, 0, "%s", ["disk full".toList]⟩],
        Outcome.returned true⟩ ∧
    (⟨APLOG_MARK, APLOG_ERR, APR_SUCCESS, 0, "%s", ["disk full".toList]⟩ : SinkCall).text =
      ["disk full".toList] := by
  have hargs : ∀ c ∈ sinkCalls (LogMessageHandler env g severity file line message_start
      (body ++ ['\n'])), c.args = [body] ∧ c.level = GetApacheLogLevel severity := by
    have haug : augmentedMessage env severity (body ++ ['\n']) = body ++ ['\n'] := by
      rcases hnotrace with h | h
      · simp [augmentedMessage, h]
      · simp [augmentedMessage, h]
    have htrim : trimNewline (augmentedMessage env severity (body ++ ['\n'])) = some body := by
      rw [haug]; exact trimNewline_append_newline body hlen
    by_cases hbreak : severity = LOG_FATAL → env.BeingDebugged = true → env.breakReturns 0 = true
    · rw [sinkCalls_LogMessageHandler env g severity file line message_start _ body htrim hbreak]
      intro c hc
      by_cases htest : GetApacheLogLevel severity ≤ g.log_level_cutoff ∨
          g.log_level_cutoff = kMaxInt
      · rw [if_pos htest] at hc
        have hceq : c = sinkCallOf g (GetApacheLogLevel severity) body := by simpa using hc
        rw [hceq]
        exact ⟨rfl, rfl⟩
      · rw [if_neg htest] at hc
        simp at hc
    · have hfatal : severity = LOG_FATAL := by
        by_contra hcon
        exact hbreak (fun h => absurd h hcon)
      have hdbg : env.BeingDebugged = true := by
        by_contra hcon
        exact hbreak (fun _ h => absurd h hcon)
      have hret : env.breakReturns 0 = false := by
        by_contra hcon
        exact hbreak (fun _ _ => by simpa using hcon)
      intro c hc
      simp [LogMessageHandler, sinkCalls, hfatal, hdbg, hret] at hc
  refine ⟨?_, ?_, LogMessageHandler_nonfatal_newline env g severity file line message_start body
    hlen, ?_, by decide⟩
  · intro c hc
    obtain ⟨h1, h2⟩ := hargs c hc
    exact ⟨h1, by simp [SinkCall.text, h1], h2⟩
  · intro hnul c hc
    obtain ⟨h1, -⟩ := hargs c hc
    simp [SinkCall.text, h1, c_str_of_not_mem body hnul]
  · exact LogMessageHandler_nonfatal_newline env Globals.initial LOG_ERROR file line
      message_start "disk full".toList (by decide) (by decide)

/-- C6 (witness): `"ab\n"` at LOG_WARNING under the finite cutoff `APLOG_DEBUG`:
the one sink call carries `"ab"`. -/
theorem LogMessageHandler_trims_newline_witness :
    (['a', 'b'] ++ ['\n']).length < SIZE_MOD ∧
    LOG_WARNING ≠ LOG_FATAL ∧
    NUL ∉ ['a', 'b'] ∧
    sinkCalls (LogMessageHandler ⟨false, [], fun _ => false⟩ ⟨7, APLOG_DEBUG⟩ LOG_WARNING
        "file.cc" 1 0 (['a', 'b'] ++ ['\n'])) =
      [sinkCallOf ⟨7, APLOG_DEBUG⟩ APLOG_WARNING ['a', 'b']] ∧
    ∀ c ∈ sinkCalls (LogMessageHandler ⟨false, [], fun _ => false⟩ ⟨7, APLOG_DEBUG⟩ LOG_WARNING
        "file.cc" 1 0 (['a', 'b'] ++ ['\n'])),
      c.text = [['a', 'b']] :=
  ⟨by decide, by decide, by decide, by decide,
    (LogMessageHandler_trims_newline ⟨false, [], fun _ => false⟩ ⟨7, APLOG_DEBUG⟩ LOG_WARNING
      "file.cc" 1 0 ['a', 'b'] (by decide) (Or.inl (by decide))).2.1 (by decide)⟩

/-- C6 (counterexample): the message `"a"`, NUL, `"b\n"` at LOG_ERROR with the
cutoff unset: the one sink call has the argument `"a"`, NUL, `"b"`, and the
text the sink reads from it is `"a"`, not the message without its last byte. -/
theorem LogMessageHandler_trims_newline_NUL :
    sinkCalls (LogMessageHandler ⟨false, [], fun _ => false⟩ Globals.initial LOG_ERROR
        "file.cc" 1 0 ['a', NUL, 'b', '\n']) =
      [sinkCallOf Globals.initial APLOG_ERR ['a', NUL, 'b']] ∧
    (sinkCallOf Globals.initial APLOG_ERR ['a', NUL, 'b']).text = [['a']] ∧
    ¬ ∀ c ∈ sinkCalls (LogMessageHandler ⟨false, [], fun _ => false⟩ Globals.initial LOG_ERROR
        "file.cc" 1 0 ['a', NUL, 'b', '\n']),
      c.text = [['a', NUL, 'b']] := by
  decide

/-! ### The empty message -/

/-- The index of line 79 is a position of every non-empty message shorter than
`2^64`. -/
theorem lastIndex_lt_length (message : List Char) (hne : message ≠ [])
    (hlen : message.length < SIZE_MOD) : lastIndex message < message.length := by
  have hpos : 0 < message.length := List.length_pos.mpr hne
  rw [lastIndex_of_ne_nil message hne hlen]
  omega

/-- C7 (failing input): on the empty message the index of line 79 is
`2^64 - 1`, which is no position of the message, and a non-fatal run stops at
the read of line 80, before the forwarding test. -/
theorem LogMessageHandler_empty_message_index :
    lastIndex [] = 18446744073709551615 ∧
    ¬ lastIndex [] < ([] : List Char).length ∧
    trimNewline [] = none ∧
    LogMessageHandler ⟨false, [], fun _ => false⟩ Globals.initial LOG_INFO "file.cc" 1 0 [] =
      ⟨[], Outcome.undefined⟩ := by
  decide

/-- A fatal message that the trim step receives non-empty: the last effect
of the run is a call of `BreakDebugger`, the run ends in `return true` or in a
trap, and it ends in `return true` only when a call of `BreakDebugger`
returned. -/
theorem LogMessageHandler_fatal_ends_in_trap (env : Env) (g : Globals) (file : String)
    (line : Int) (message_start : Nat) (str : List Char)
    (hne : augmentedMessage env LOG_FATAL str ≠ [])
    (hlen : (augmentedMessage env LOG_FATAL str).length < SIZE_MOD) :
    (LogMessageHandler env g LOG_FATAL file line message_start str).effects.getLast? =
      some Effect.BreakDebugger ∧
    ((LogMessageHandler env g LOG_FATAL file line message_start str).outcome =
        Outcome.returned true →
      env.breakReturns (if env.BeingDebugged = true then 1 else 0) = true) ∧
    (LogMessageHandler env g LOG_FATAL file line message_start str).outcome ≠
      Outcome.undefined := by
  obtain ⟨trimmed, htrim, -⟩ := trimNewline_of_ne_nil _ hne hlen
  by_cases hbreak : env.BeingDebugged = true → env.breakReturns 0 = true
  · rw [LogMessageHandler_reaching env g LOG_FATAL file line message_start str trimmed htrim
      (fun _ => hbreak)]
    by_cases hret : env.breakReturns (if env.BeingDebugged = true then 1 else 0) = true <;>
      simp [forwardAndFinish, Run.after, hret, List.getLast?_append]
  · have hdbg : env.BeingDebugged = true := by
      by_contra hcon
      exact hbreak (fun h => absurd h hcon)
    have hret : env.breakReturns 0 = false := by
      by_contra hcon
      exact hbreak (fun _ => by simpa using hcon)
    simp [LogMessageHandler, hdbg, hret]

/-- C10: every sink call of the handler has the source marker of line 85, the
mapped level, the status `APR_SUCCESS`, the pool of the globals, the format
string `"%s"` and exactly one substituted argument, the trimmed message that
the trim step made of the (possibly stack-augmented) message: the format does
not depend on the message. -/
theorem LogMessageHandler_sink_call (env : Env) (g : Globals) (severity : Int)
    (file : String) (line : Int) (message_start : Nat) (str : List Char) (c : SinkCall)
    (hc : c ∈ sinkCalls (LogMessageHandler env g severity file line message_start str)) :
    c.fmt = "%s" ∧ c.status = APR_SUCCESS ∧ c.pool = g.log_pool ∧ c.mark = APLOG_MARK ∧
    c.level = GetApacheLogLevel severity ∧
    ∃ trimmed, trimNewline (augmentedMessage env severity str) = some trimmed ∧
      c.args = [trimmed] := by
  cases htrim : trimNewline (augmentedMessage env severity str) with
  | none =>
    exfalso
    by_cases hfatal : severity = LOG_FATAL
    · by_cases hdbg : env.BeingDebugged = true
      · have hmsg : trimNewline str = none := by
          simpa [augmentedMessage, hfatal, hdbg] using htrim
        by_cases hret : env.breakReturns 0 = true <;>
          simp [LogMessageHandler, trimAndForward, sinkCalls, Run.after, hfatal, hdbg, hret,
            hmsg] at hc
      · have hdbg2 : env.BeingDebugged = false := by simpa using hdbg
        have hmsg : trimNewline (str ++ env.stackTrace) = none := by
          simpa [augmentedMessage, hfatal, hdbg2] using htrim
        simp [LogMessageHandler, trimAndForward, sinkCalls, Run.after, hfatal, hdbg2,
          hmsg] at hc
    · have hmsg : trimNewline str = none := by
        simpa [augmentedMessage, hfatal] using htrim
      simp [LogMessageHandler, trimAndForward, sinkCalls, hfatal, hmsg] at hc
  | some trimmed =>
    by_cases hbreak : severity = LOG_FATAL → env.BeingDebugged = true →
        env.breakReturns 0 = true
    · rw [sinkCalls_LogMessageHandler env g severity file line message_start str trimmed
        htrim hbreak] at hc
      by_cases htest : GetApacheLogLevel severity ≤ g.log_level_cutoff ∨
          g.log_level_cutoff = kMaxInt
      · rw [if_pos htest] at hc
        have hceq : c = sinkCallOf g (GetApacheLogLevel severity) trimmed := by simpa using hc
        rw [hceq]
        exact ⟨rfl, rfl, rfl, rfl, rfl, trimmed, rfl, rfl⟩
      · rw [if_neg htest] at hc
        simp at hc
    · exfalso
      have hfatal : severity = LOG_FATAL := by
        by_contra hcon
        exact hbreak (fun h => absurd h hcon)
      have hdbg : env.BeingDebugged = true := by
        by_contra hcon
        exact hbreak (fun _ h => absurd h hcon)
      have hret : env.breakReturns 0 = false := by
        by_contra hcon
        exact hbreak (fun _ _ => by simpa using hcon)
      simp [LogMessageHandler, sinkCalls, hfatal, hdbg, hret] at hc

/-- C10 (witness): the message `"100%n%s\n"` at LOG_ERROR reaches the sink as
the argument of the format `"%s"`. -/
theorem LogMessageHandler_sink_call_witness :
    sinkCallOf ⟨7, kMaxInt⟩ APLOG_ERR "100%n%s".toList ∈
      sinkCalls (LogMessageHandler ⟨false, [], fun _ => false⟩ ⟨7, kMaxInt⟩ LOG_ERROR
        "file.cc" 1 0 "100%n%s\n".toList) ∧
    (sinkCallOf ⟨7, kMaxInt⟩ APLOG_ERR "100%n%s".toList).fmt = "%s" ∧
    (sinkCallOf ⟨7, kMaxInt⟩ APLOG_ERR "100%n%s".toList).status = APR_SUCCESS ∧
    (sinkCallOf ⟨7, kMaxInt⟩ APLOG_ERR "100%n%s".toList).pool = (⟨7, kMaxInt⟩ : Globals).log_pool ∧
    (sinkCallOf ⟨7, kMaxInt⟩ APLOG_ERR "100%n%s".toList).mark = APLOG_MARK ∧
    (sinkCallOf ⟨7, kMaxInt⟩ APLOG_ERR "100%n%s".toList).level = GetApacheLogLevel LOG_ERROR ∧
    ∃ trimmed,
      trimNewline (augmentedMessage ⟨false, [], fun _ => false⟩ LOG_ERROR "100%n%s\n".toList) =
        some trimmed ∧
      (sinkCallOf ⟨7, kMaxInt⟩ APLOG_ERR "100%n%s".toList).args = [trimmed] :=
  ⟨by decide,
    LogMessageHandler_sink_call ⟨false, [], fun _ => false⟩ ⟨7, kMaxInt⟩ LOG_ERROR "file.cc" 1 0
      "100%n%s\n".toList (sinkCallOf ⟨7, kMaxInt⟩ APLOG_ERR "100%n%s".toList) (by decide)⟩

/-! ### The stack trace of a fatal message -/

/-- A fatal message without debugger: the run captures the stack trace, makes
the forwarding test on the trimmed concatenation of the message and the stack
trace text, and ends with the call of `BreakDebugger`. -/
theorem LogMessageHandler_fatal_no_debugger (env : Env) (g : Globals) (file : String)
    (line : Int) (message_start : Nat) (str trimmed : List Char)
    (hdbg : env.BeingDebugged = false)
    (htrim : trimNewline (str ++ env.stackTrace) = some trimmed) :
    LogMessageHandler env g LOG_FATAL file line message_start str =
      ⟨[Effect.StackTrace] ++
        (if APLOG_ALERT ≤ g.log_level_cutoff ∨ g.log_level_cutoff = kMaxInt then
          [Effect.ap_log_perror (sinkCallOf g APLOG_ALERT trimmed)]
        else []) ++ [Effect.BreakDebugger],
        if env.breakReturns 0 = true then Outcome.returned true else Outcome.trapped⟩ := by
  have hlevel : GetApacheLogLevel LOG_FATAL = APLOG_ALERT := by decide
  simp [LogMessageHandler, trimAndForward, forwardAndFinish, Run.after, hdbg, htrim, hlevel]

/-- C11 (amended): for LOG_FATAL without debugger, every message and every
stack trace text whose concatenation is not empty, the handler captures the
stack trace, makes the forwarding test and then calls `BreakDebugger`; the
argument of the sink call is the message followed by the stack trace text
without the final newline of that concatenation when it ends in one, and the
whole concatenation otherwise; the text the sink reads is that argument up to
its first NUL; `return true` is reached only if the final trap returns. -/
theorem LogMessageHandler_fatal_stack_trace (env : Env) (g : Globals) (file : String)
    (line : Int) (message_start : Nat) (str : List Char)
    (hdbg : env.BeingDebugged = false)
    (hne : str ++ env.stackTrace ≠ [])
    (hlen : (str ++ env.stackTrace).length < SIZE_MOD) :
    ∃ trimmed, trimNewline (str ++ env.stackTrace) = some trimmed ∧
      (∀ body, str ++ env.stackTrace = body ++ ['\n'] → trimmed = body) ∧
      ((str ++ env.stackTrace).getLast? ≠ some '\n' → trimmed = str ++ env.stackTrace) ∧
      (LogMessageHandler env g LOG_FATAL file line message_start str).effects =
        [Effect.StackTrace] ++
          (if APLOG_ALERT ≤ g.log_level_cutoff ∨ g.log_level_cutoff = kMaxInt then
            [Effect.ap_log_perror (sinkCallOf g APLOG_ALERT trimmed)]
          else []) ++ [Effect.BreakDebugger] ∧
      (sinkCallOf g APLOG_ALERT trimmed).args = [trimmed] ∧
      (sinkCallOf g APLOG_ALERT trimmed).text = [c_str trimmed] ∧
      (NUL ∉ trimmed → (sinkCallOf g APLOG_ALERT trimmed).text = [trimmed]) ∧
      (LogMessageHandler env g LOG_FATAL file line message_start str).outcome =
        (if env.breakReturns 0 = true then Outcome.returned true else Outcome.trapped) ∧
      ((LogMessageHandler env g LOG_FATAL file line message_start str).outcome =
          Outcome.returned true → env.breakReturns 0 = true) := by
  obtain ⟨trimmed, htrim, hshape⟩ := trimNewline_of_ne_nil _ hne hlen
  have hrun := LogMessageHandler_fatal_no_debugger env g file line message_start str trimmed
    hdbg htrim
  refine ⟨trimmed, htrim, ?_, ?_, ?_, rfl, rfl, ?_, ?_, ?_⟩
  · intro body hbody
    have hlen2 : (body ++ ['\n']).length < SIZE_MOD := by rw [← hbody]; exact hlen
    have h := trimNewline_append_newline body hlen2
    rw [← hbody, htrim] at h
    cases h
    rfl
  · intro hlast
    rcases hshape with h | h
    · exact h
    · exfalso
      apply hlast
      rw [h]
      simp
  · rw [hrun]
  · intro hnul
    simp [SinkCall.text, sinkCallOf, c_str_of_not_mem trimmed hnul]
  · rw [hrun]
  · rw [hrun]
    by_cases hret : env.breakReturns 0 = true
    · intro _; exact hret
    · simp [hret]

/-- C11 (witness): `"invariant X violated"` with the stack trace text
`"Backtrace:\n"` and the cutoff unset: the stack trace capture, the sink call
with `"invariant X violatedBacktrace:"`, the final trap. -/
theorem LogMessageHandler_fatal_stack_trace_witness :
    (⟨false, "Backtrace:\n".toList, fun _ => false⟩ : Env).BeingDebugged = false ∧
    "invariant X violated".toList ++
      (⟨false, "Backtrace:\n".toList, fun _ => false⟩ : Env).stackTrace ≠ [] ∧
    LogMessageHandler ⟨false, "Backtrace:\n".toList, fun _ => false⟩ Globals.initial LOG_FATAL
        "file.cc" 1 0 "invariant X violated".toList =
      ⟨[Effect.StackTrace,
          Effect.ap_log_perror
            (sinkCallOf Globals.initial APLOG_ALERT "invariant X violatedBacktrace:".toList),
          Effect.BreakDebugger],
        Outcome.trapped⟩ ∧
    ∃ trimmed,
      trimNewline ("invariant X violated".toList ++
        (⟨false, "Backtrace:\n".toList, fun _ => false⟩ : Env).stackTrace) = some trimmed ∧
      ∀ body, "invariant X violated".toList ++
          (⟨false, "Backtrace:\n".toList, fun _ => false⟩ : Env).stackTrace = body ++ ['\n'] →
        trimmed = body :=
  ⟨rfl, by decide, by decide,
    (LogMessageHandler_fatal_stack_trace ⟨false, "Backtrace:\n".toList, fun _ => false⟩
      Globals.initial "file.cc" 1 0 "invariant X violated".toList rfl (by decide)
      (by decide)).imp fun _ h => ⟨h.1, h.2.1⟩⟩

/-- C11 (counterexample): `"invariant X violated"` with the stack trace text
`"Backtrace:\n"` and the cutoff unset: the one sink call carries
`"invariant X violatedBacktrace:"`, as argument and as text read, not the
message followed by the complete stack trace text. -/
theorem LogMessageHandler_fatal_stack_trace_newline :
    sinkCalls (LogMessageHandler ⟨false, "Backtrace:\n".toList, fun _ => false⟩
        Globals.initial LOG_FATAL "file.cc" 1 0 "invariant X violated".toList) =
      [sinkCallOf Globals.initial APLOG_ALERT "invariant X violatedBacktrace:".toList] ∧
    (sinkCallOf Globals.initial APLOG_ALERT "invariant X violatedBacktrace:".toList).text =
      ["invariant X violatedBacktrace:".toList] ∧
    (¬ ∀ c ∈ sinkCalls (LogMessageHandler ⟨false, "Backtrace:\n".toList, fun _ => false⟩
        Globals.initial LOG_FATAL "file.cc" 1 0 "invariant X violated".toList),
      c.args = ["invariant X violated".toList ++ "Backtrace:\n".toList]) ∧
    ¬ ∀ c ∈ sinkCalls (LogMessageHandler ⟨false, "Backtrace:\n".toList, fun _ => false⟩
        Globals.initial LOG_FATAL "file.cc" 1 0 "invariant X violated".toList),
      c.text = ["invariant X violated".toList ++ "Backtrace:\n".toList] := by
  decide

/-! ### The default row as a function of the verbosity -/

/-- The call made in the default row of `SetLoggingLevel`. -/
theorem SetLoggingLevel_default_eq (h v : Int)
    (hrow : h ≠ APLOG_EMERG ∧ h ≠ APLOG_ALERT ∧ h ≠ APLOG_CRIT ∧ h ≠ APLOG_ERR ∧
      h ≠ APLOG_WARNING) :
    SetLoggingLevel h v = [Effect.SetMinLogLevel (min LOG_INFO (negInt v))] := by
  obtain ⟨h0, h1, h2, h3, h4⟩ := hrow
  simp [SetLoggingLevel, h0, h1, h2, h3, h4]

/-- The default row where line 141 is defined: for `int` verbosities
`v1 <= v2` other than `INT_MIN`, the minimum installed for `v2` is at most the
one installed for `v1`; and every positive `int` verbosity installs a minimum
strictly below LOG_INFO. -/
theorem SetLoggingLevel_default_monotone (h v1 v2 : Int)
    (hrow : h ≠ APLOG_EMERG ∧ h ≠ APLOG_ALERT ∧ h ≠ APLOG_CRIT ∧ h ≠ APLOG_ERR ∧
      h ≠ APLOG_WARNING)
    (hv1 : IsInt v1) (hv2 : IsInt v2) (hle : v1 ≤ v2) (hmin : v1 ≠ INT_MIN) :
    (∃ a b, SetLoggingLevel h v1 = [Effect.SetMinLogLevel a] ∧
      SetLoggingLevel h v2 = [Effect.SetMinLogLevel b] ∧ b ≤ a) ∧
    ∀ v : Int, IsInt v → 0 < v →
      ∃ b, SetLoggingLevel h v = [Effect.SetMinLogLevel b] ∧ b < LOG_INFO := by
  refine ⟨⟨min LOG_INFO (negInt v1), min LOG_INFO (negInt v2),
    SetLoggingLevel_default_eq h v1 hrow, SetLoggingLevel_default_eq h v2 hrow, ?_⟩, ?_⟩
  · unfold IsInt INT_MIN kMaxInt at hv1 hv2
    unfold INT_MIN at hmin
    unfold negInt wrapInt LOG_INFO
    omega
  · intro v hv hpos
    refine ⟨min LOG_INFO (negInt v), SetLoggingLevel_default_eq h v hrow, ?_⟩
    unfold IsInt INT_MIN kMaxInt at hv
    unfold negInt wrapInt LOG_INFO
    omega

/-- C12 (failing input): at host level NOTICE the verbosities `INT_MIN` and
`INT_MIN + 1` are `int`s in increasing order; the second installs LOG_INFO;
for the first line 141 negates `INT_MIN`, a signed overflow for which C++
defines no value, and the order of the two installed minima is kept only if
that negation comes out non-negative. -/
theorem SetLoggingLevel_default_monotone_overflow :
    IsInt INT_MIN ∧ IsInt (INT_MIN + 1) ∧ INT_MIN ≤ INT_MIN + 1 ∧
    ¬ negDefined INT_MIN ∧ negDefined (INT_MIN + 1) ∧
    SetLoggingLevel APLOG_NOTICE (INT_MIN + 1) = [Effect.SetMinLogLevel LOG_INFO] ∧
    SetLoggingLevel APLOG_NOTICE INT_MIN =
      [Effect.SetMinLogLevel (min LOG_INFO (negInt INT_MIN))] ∧
    ∀ x : Int, LOG_INFO ≤ min LOG_INFO x ↔ 0 ≤ x := by
  refine ⟨by decide, by decide, by decide, by decide, by decide, by decide, rfl, ?_⟩
  intro x
  unfold LOG_INFO
  omega

/-! ### What the trim step removes -/

/-- The sink calls of a non-fatal run carry the text the trim step made of the
message. -/
theorem sinkCalls_nonfatal_args (env : Env) (g : Globals) (severity : Int) (file : String)
    (line : Int) (message_start : Nat) (str : List Char) (hfatal : severity ≠ LOG_FATAL)
    (c : SinkCall)
    (hc : c ∈ sinkCalls (LogMessageHandler env g severity file line message_start str)) :
    ∃ trimmed, trimNewline str = some trimmed ∧ c.args = [trimmed] := by
  cases htrim : trimNewline str with
  | none =>
    simp [LogMessageHandler, trimAndForward, sinkCalls, hfatal, htrim] at hc
  | some trimmed =>
    have haug : trimNewline (augmentedMessage env severity str) = some trimmed := by
      simpa [augmentedMessage, hfatal] using htrim
    rw [sinkCalls_LogMessageHandler env g severity file line message_start str trimmed haug
      (fun h => absurd h hfatal)] at hc
    by_cases htest : GetApacheLogLevel severity ≤ g.log_level_cutoff ∨
        g.log_level_cutoff = kMaxInt
    · rw [if_pos htest] at hc
      have hceq : c = sinkCallOf g (GetApacheLogLevel severity) trimmed := by simpa using hc
      exact ⟨trimmed, rfl, by rw [hceq]; rfl⟩
    · rw [if_neg htest] at hc
      simp at hc

/-- C13: for every message `m`, a text `t` the trim step produces is `m` or `m`
without one final newline, and the step produces a text for every non-empty
`m`; a message ending in two newlines keeps one; a final space, tab or
carriage return is kept; and the texts the handler forwards for a non-fatal
message are such texts `t`. -/
theorem trimNewline_removes_one_newline (m : List Char) (hlen : m.length + 2 < SIZE_MOD) :
    (∀ t, trimNewline m = some t → (t = m ∨ m = t ++ ['\n'])) ∧
    (m ≠ [] → ∃ t, trimNewline m = some t) ∧
    trimNewline (m ++ ['\n', '\n']) = some (m ++ ['\n']) ∧
    (∀ c : Char, c = ' ' ∨ c = '\t' ∨ c = '\r' → trimNewline (m ++ [c]) = some (m ++ [c])) ∧
    (∀ (env : Env) (g : Globals) (severity : Int) (file : String) (line : Int)
      (message_start : Nat), severity ≠ LOG_FATAL →
      ∀ c ∈ sinkCalls (LogMessageHandler env g severity file line message_start m),
        ∃ t, c.args = [t] ∧ (t = m ∨ m = t ++ ['\n'])) := by
  have hlen0 : m.length < SIZE_MOD := by omega
  have hshape : ∀ t, trimNewline m = some t → (t = m ∨ m = t ++ ['\n']) := by
    intro t ht
    by_cases hne : m = []
    · rw [hne, trimNewline_nil] at ht
      cases ht
    · obtain ⟨t0, ht0, hs⟩ := trimNewline_of_ne_nil m hne hlen0
      rw [ht0] at ht
      cases ht
      exact hs
  refine ⟨hshape, ?_, ?_, ?_, ?_⟩
  · intro hne
    obtain ⟨t0, ht0, -⟩ := trimNewline_of_ne_nil m hne hlen0
    exact ⟨t0, ht0⟩
  · have h := trimNewline_append_newline (m ++ ['\n']) (by simp; omega)
    simpa using h
  · intro c hc
    have hnl : c ≠ '\n' := by
      rcases hc with h | h | h <;> rw [h] <;> decide
    exact trimNewline_of_getLast (m ++ [c]) (by simp) (by simp; omega) (by simpa using hnl)
  · intro env g severity file line message_start hfatal c hc
    obtain ⟨t, ht, hargs⟩ :=
      sinkCalls_nonfatal_args env g severity file line message_start m hfatal c hc
    exact ⟨t, hargs, hshape t ht⟩

/-- C13 (witness): the message `"a \n"`. -/
theorem trimNewline_removes_one_newline_witness :
    ['a', ' ', '\n'].length + 2 < SIZE_MOD ∧
    trimNewline ['a', ' ', '\n'] = some ['a', ' '] ∧
    (∀ t, trimNewline ['a', ' ', '\n'] = some t →
      (t = ['a', ' ', '\n'] ∨ ['a', ' ', '\n'] = t ++ ['\n'])) ∧
    (['a', ' ', '\n'] ≠ [] → ∃ t, trimNewline ['a', ' ', '\n'] = some t) ∧
    trimNewline (['a', ' ', '\n'] ++ ['\n', '\n']) = some (['a', ' ', '\n'] ++ ['\n']) ∧
    (∀ c : Char, c = ' ' ∨ c = '\t' ∨ c = '\r' →
      trimNewline (['a', ' ', '\n'] ++ [c]) = some (['a', ' ', '\n'] ++ [c])) ∧
    (∀ (env : Env) (g : Globals) (severity : Int) (file : String) (line : Int)
      (message_start : Nat), severity ≠ LOG_FATAL →
      ∀ c ∈ sinkCalls (LogMessageHandler env g severity file line message_start
          ['a', ' ', '\n']),
        ∃ t, c.args = [t] ∧ (t = ['a', ' ', '\n'] ∨ ['a', ' ', '\n'] = t ++ ['\n'])) :=
  ⟨by decide, by decide, trimNewline_removes_one_newline ['a', ' ', '\n'] (by decide)⟩

/-! ### A fatal message under a debugger -/

/-- The stack trace is captured exactly in the runs of a fatal message without
debugger. -/
theorem StackTrace_mem_effects (env : Env) (g : Globals) (severity : Int) (file : String)
    (line : Int) (message_start : Nat) (str : List Char) :
    Effect.StackTrace ∈ (LogMessageHandler env g severity file line message_start str).effects ↔
      severity = LOG_FATAL ∧ env.BeingDebugged = false := by
  by_cases hfatal : severity = LOG_FATAL
  · by_cases hdbg : env.BeingDebugged = true
    · by_cases hret : env.breakReturns 0 = true
      · cases htrim : trimNewline str with
        | none => simp [LogMessageHandler, trimAndForward, Run.after, hfatal, hdbg, hret, htrim]
        | some trimmed =>
          by_cases htest : GetApacheLogLevel LOG_FATAL ≤ g.log_level_cutoff ∨
              g.log_level_cutoff = kMaxInt <;>
            simp [LogMessageHandler, trimAndForward, forwardAndFinish, Run.after, hfatal, hdbg,
              hret, htrim, htest]
      · simp [LogMessageHandler, hfatal, hdbg, hret]
    · have hdbg2 : env.BeingDebugged = false := by simpa using hdbg
      simp [LogMessageHandler, Run.after, hfatal, hdbg2]
  · cases htrim : trimNewline str with
    | none => simp [LogMessageHandler, trimAndForward, hfatal, htrim]
    | some trimmed =>
      by_cases htest : GetApacheLogLevel severity ≤ g.log_level_cutoff ∨
          g.log_level_cutoff = kMaxInt <;>
        simp [LogMessageHandler, trimAndForward, forwardAndFinish, hfatal, htrim, htest]

/-- The sink calls of a fatal run under a debugger carry the text the trim
step made of the message alone. -/
theorem sinkCalls_fatal_debugged_args (env : Env) (g : Globals) (file : String)
    (line : Int) (message_start : Nat) (str : List Char) (hdbg : env.BeingDebugged = true)
    (c : SinkCall)
    (hc : c ∈ sinkCalls (LogMessageHandler env g LOG_FATAL file line message_start str)) :
    ∃ trimmed, trimNewline str = some trimmed ∧ c.args = [trimmed] := by
  by_cases hret : env.breakReturns 0 = true
  · cases htrim : trimNewline str with
    | none =>
      simp [LogMessageHandler, trimAndForward, sinkCalls, Run.after, hdbg, hret, htrim] at hc
    | some trimmed =>
      have haug : trimNewline (augmentedMessage env LOG_FATAL str) = some trimmed := by
        simpa [augmentedMessage, hdbg] using htrim
      rw [sinkCalls_LogMessageHandler env g LOG_FATAL file line message_start str trimmed haug
        (fun _ _ => hret)] at hc
      by_cases htest : GetApacheLogLevel LOG_FATAL ≤ g.log_level_cutoff ∨
          g.log_level_cutoff = kMaxInt
      · rw [if_pos htest] at hc
        have hceq : c = sinkCallOf g (GetApacheLogLevel LOG_FATAL) trimmed := by simpa using hc
        exact ⟨trimmed, rfl, by rw [hceq]; rfl⟩
      · rw [if_neg htest] at hc
        simp at hc
  · simp [LogMessageHandler, sinkCalls, hdbg, hret] at hc

/-- The texts forwarded under the unset cutoff by a run that reaches the trim
step with the message alone. -/
theorem sinkCalls_args_unset (env : Env) (g : Globals) (severity : Int) (file : String)
    (line : Int) (message_start : Nat) (str : List Char)
    (hunset : g.log_level_cutoff = kMaxInt)
    (hmsg : augmentedMessage env severity str = str)
    (hbreak : severity = LOG_FATAL → env.BeingDebugged = true → env.breakReturns 0 = true) :
    (sinkCalls (LogMessageHandler env g severity file line message_start str)).map
        SinkCall.args =
      match trimNewline str with
      | none => []
      | some trimmed => [[trimmed]] := by
  cases htrim : trimNewline str with
  | none =>
    by_cases hfatal : severity = LOG_FATAL
    · by_cases hdbg : env.BeingDebugged = true
      · have hret := hbreak hfatal hdbg
        simp [LogMessageHandler, trimAndForward, sinkCalls, Run.after, hfatal, hdbg, hret, htrim]
      · have hdbg2 : env.BeingDebugged = false := by simpa using hdbg
        have hmsg2 : str ++ env.stackTrace = str := by
          simpa [augmentedMessage, hfatal, hdbg2] using hmsg
        simp [LogMessageHandler, trimAndForward, sinkCalls, Run.after, hfatal, hdbg2, hmsg2,
          htrim]
    · simp [LogMessageHandler, trimAndForward, sinkCalls, hfatal, htrim]
  | some trimmed =>
    have haug : trimNewline (augmentedMessage env severity str) = some trimmed := by
      rw [hmsg]; exact htrim
    rw [sinkCalls_LogMessageHandler env g severity file line message_start str trimmed haug
      hbreak]
    simp [hunset, sinkCallOf]

/-- C14: for LOG_FATAL with a debugger attached, the first effect of the handler
is the call of `BreakDebugger`, before any sink call; no stack trace is
captured; when the breakpoint returns the run is the breakpoint, the
forwarding test on the trimmed message alone and the final trap; every text
forwarded is the trimmed message alone, the text any non-fatal severity
forwards for the same message, and with the cutoff unset the texts forwarded
are the same list as for a non-fatal severity.  The stack trace is appended
if and only if the severity is LOG_FATAL and no debugger is attached: in that
case the run captures the stack trace and forwards the trimmed concatenation
of the message and the stack trace text; in every other case every text
forwarded is the trimmed message alone; and the stack trace is captured in
exactly that case. -/
theorem LogMessageHandler_fatal_debugged (env : Env) (g : Globals) (file : String)
    (line : Int) (message_start : Nat) (str : List Char) (hdbg : env.BeingDebugged = true) :
    (LogMessageHandler env g LOG_FATAL file line message_start str).effects.head? =
      some Effect.BreakDebugger ∧
    Effect.StackTrace ∉ (LogMessageHandler env g LOG_FATAL file line message_start str).effects ∧
    (env.breakReturns 0 = true → ∀ trimmed, trimNewline str = some trimmed →
      LogMessageHandler env g LOG_FATAL file line message_start str =
        ⟨[Effect.BreakDebugger] ++
          (if APLOG_ALERT ≤ g.log_level_cutoff ∨ g.log_level_cutoff = kMaxInt then
            [Effect.ap_log_perror (sinkCallOf g APLOG_ALERT trimmed)]
          else []) ++ [Effect.BreakDebugger],
          if env.breakReturns 1 = true then Outcome.returned true else Outcome.trapped⟩) ∧
    (∀ c ∈ sinkCalls (LogMessageHandler env g LOG_FATAL file line message_start str),
      ∃ trimmed, trimNewline str = some trimmed ∧ c.args = [trimmed]) ∧
    (∀ (env2 : Env) (g2 : Globals) (severity2 : Int), severity2 ≠ LOG_FATAL →
      ∀ c ∈ sinkCalls (LogMessageHandler env g LOG_FATAL file line message_start str),
      ∀ c2 ∈ sinkCalls (LogMessageHandler env2 g2 severity2 file line message_start str),
        c.args = c2.args ∧ c.text = c2.text) ∧
    (env.breakReturns 0 = true → g.log_level_cutoff = kMaxInt →
      ∀ severity2 : Int, severity2 ≠ LOG_FATAL →
        (sinkCalls (LogMessageHandler env g LOG_FATAL file line message_start str)).map
            SinkCall.args =
          (sinkCalls (LogMessageHandler env g severity2 file line message_start str)).map
            SinkCall.args) ∧
    (∀ (env2 : Env) (g2 : Globals) (trimmed : List Char), env2.BeingDebugged = false →
      trimNewline (str ++ env2.stackTrace) = some trimmed →
      LogMessageHandler env2 g2 LOG_FATAL file line message_start str =
        ⟨[Effect.StackTrace] ++
          (if APLOG_ALERT ≤ g2.log_level_cutoff ∨ g2.log_level_cutoff = kMaxInt then
            [Effect.ap_log_perror (sinkCallOf g2 APLOG_ALERT trimmed)]
          else []) ++ [Effect.BreakDebugger],
          if env2.breakReturns 0 = true then Outcome.returned true else Outcome.trapped⟩) ∧
    (∀ (env2 : Env) (g2 : Globals) (severity2 : Int),
      ∀ c ∈ sinkCalls (LogMessageHandler env2 g2 severity2 file line message_start str),
        ∃ trimmed,
          trimNewline (if severity2 = LOG_FATAL ∧ env2.BeingDebugged = false then
            str ++ env2.stackTrace else str) = some trimmed ∧
          c.args = [trimmed]) ∧
    (∀ (env2 : Env) (severity2 : Int),
      Effect.StackTrace ∈
          (LogMessageHandler env2 g severity2 file line message_start str).effects ↔
        severity2 = LOG_FATAL ∧ env2.BeingDebugged = false) := by
  have hlevel : GetApacheLogLevel LOG_FATAL = APLOG_ALERT := by decide
  refine ⟨?_, ?_, ?_, ?_, ?_, ?_, ?_, ?_, ?_⟩
  · by_cases hret : env.breakReturns 0 = true
    · simp [LogMessageHandler, Run.after, hdbg, hret]
    · simp [LogMessageHandler, hdbg, hret]
  · rw [StackTrace_mem_effects]
    simp [hdbg]
  · intro hret trimmed htrim
    simp [LogMessageHandler, trimAndForward, forwardAndFinish, Run.after, hdbg, hret, htrim,
      hlevel]
  · exact fun c hc =>
      sinkCalls_fatal_debugged_args env g file line message_start str hdbg c hc
  · intro env2 g2 severity2 hfatal2 c hc c2 hc2
    obtain ⟨t, ht, hargs⟩ :=
      sinkCalls_fatal_debugged_args env g file line message_start str hdbg c hc
    obtain ⟨t2, ht2, hargs2⟩ :=
      sinkCalls_nonfatal_args env2 g2 severity2 file line message_start str hfatal2 c2 hc2
    rw [ht] at ht2
    cases ht2
    have hsame : c.args = c2.args := by rw [hargs, hargs2]
    exact ⟨hsame, by simp [SinkCall.text, hsame]⟩
  · intro hret hunset severity2 hfatal2
    rw [sinkCalls_args_unset env g LOG_FATAL file line message_start str hunset
        (by simp [augmentedMessage, hdbg]) (fun _ _ => hret),
      sinkCalls_args_unset env g severity2 file line message_start str hunset
        (by simp [augmentedMessage, hfatal2]) (fun h => absurd h hfatal2)]
  · intro env2 g2 trimmed hdbg2 htrim
    exact LogMessageHandler_fatal_no_debugger env2 g2 file line message_start str trimmed
      hdbg2 htrim
  · intro env2 g2 severity2 c hc
    by_cases hfatal2 : severity2 = LOG_FATAL
    · subst hfatal2
      by_cases hd : env2.BeingDebugged = true
      · have hcond : ¬ (LOG_FATAL = LOG_FATAL ∧ env2.BeingDebugged = false) := by simp [hd]
        rw [if_neg hcond]
        exact sinkCalls_fatal_debugged_args env2 g2 file line message_start str hd c hc
      · have hd2 : env2.BeingDebugged = false := by simpa using hd
        have hcond : LOG_FATAL = LOG_FATAL ∧ env2.BeingDebugged = false := ⟨rfl, hd2⟩
        rw [if_pos hcond]
        cases htrim : trimNewline (str ++ env2.stackTrace) with
        | none =>
          simp [LogMessageHandler, trimAndForward, sinkCalls, Run.after, hd2, htrim] at hc
        | some trimmed =>
          rw [LogMessageHandler_fatal_no_debugger env2 g2 file line message_start str trimmed
            hd2 htrim] at hc
          refine ⟨trimmed, rfl, ?_⟩
          by_cases htest : APLOG_ALERT ≤ g2.log_level_cutoff ∨ g2.log_level_cutoff = kMaxInt
          · simp [sinkCalls, htest] at hc
            rw [hc]
            rfl
          · simp [sinkCalls, htest] at hc
    · have hcond : ¬ (severity2 = LOG_FATAL ∧ env2.BeingDebugged = false) := by
        simp [hfatal2]
      rw [if_neg hcond]
      exact sinkCalls_nonfatal_args env2 g2 severity2 file line message_start str hfatal2 c hc
  · exact fun env2 severity2 =>
      StackTrace_mem_effects env2 g severity2 file line message_start str

/-- C14 (witness): the fatal message `"boom\n"` with the stack trace text
`"#0 main\n"` and the cutoff unset.  Under a debugger whose breakpoints return:
the breakpoint, the sink call with `"boom"`, the final trap, and the texts are
those of LOG_ERROR.  Without debugger: the stack trace capture, the sink call
with `"boom\n#0 main"`, the final trap. -/
theorem LogMessageHandler_fatal_debugged_witness :
    (⟨true, "#0 main\n".toList, fun _ => true⟩ : Env).BeingDebugged = true ∧
    LogMessageHandler ⟨true, "#0 main\n".toList, fun _ => true⟩ Globals.initial LOG_FATAL
        "file.cc" 1 0 "boom\n".toList =
      ⟨[Effect.BreakDebugger,
          Effect.ap_log_perror (sinkCallOf Globals.initial APLOG_ALERT "boom".toList),
          Effect.BreakDebugger],
        Outcome.returned true⟩ ∧
    (sinkCalls (LogMessageHandler ⟨true, "#0 main\n".toList, fun _ => true⟩ Globals.initial
        LOG_FATAL "file.cc" 1 0 "boom\n".toList)).map SinkCall.args =
      (sinkCalls (LogMessageHandler ⟨true, "#0 main\n".toList, fun _ => true⟩ Globals.initial
        LOG_ERROR "file.cc" 1 0 "boom\n".toList)).map SinkCall.args ∧
    LogMessageHandler ⟨false, "#0 main\n".toList, fun _ => true⟩ Globals.initial LOG_FATAL
        "file.cc" 1 0 "boom\n".toList =
      ⟨[Effect.StackTrace] ++
        (if APLOG_ALERT ≤ Globals.initial.log_level_cutoff ∨
            Globals.initial.log_level_cutoff = kMaxInt then
          [Effect.ap_log_perror (sinkCallOf Globals.initial APLOG_ALERT "boom\n#0 main".toList)]
        else []) ++ [Effect.BreakDebugger],
        if (⟨false, "#0 main\n".toList, fun _ => true⟩ : Env).breakReturns 0 = true then
          Outcome.returned true
        else Outcome.trapped⟩ :=
  ⟨rfl, by decide,
    (LogMessageHandler_fatal_debugged ⟨true, "#0 main\n".toList, fun _ => true⟩ Globals.initial
      "file.cc" 1 0 "boom\n".toList rfl).2.2.2.2.2.1 rfl rfl LOG_ERROR (by decide),
    (LogMessageHandler_fatal_debugged ⟨true, "#0 main\n".toList, fun _ => true⟩ Globals.initial
      "file.cc" 1 0 "boom\n".toList rfl).2.2.2.2.2.2.1
      ⟨false, "#0 main\n".toList, fun _ => true⟩ Globals.initial "boom\n#0 main".toList rfl
      (by decide)⟩

/-! ### The origin of the message -/

/-- C15: two invocations of the handler that differ only in `file`, `line` or
`message_start` have the same effects and the same outcome; and whether the
sink is called, with which level and which text does not depend on the pool. -/
theorem LogMessageHandler_ignores_origin (env : Env) (g : Globals) (severity : Int)
    (file1 file2 : String) (line1 line2 : Int) (message_start1 message_start2 : Nat)
    (str : List Char) :
    LogMessageHandler env g severity file1 line1 message_start1 str =
      LogMessageHandler env g severity file2 line2 message_start2 str ∧
    ∀ pool2 : Nat,
      (sinkCalls (LogMessageHandler env ⟨pool2, g.log_level_cutoff⟩ severity file1 line1
          message_start1 str)).map (fun c => (c.level, c.args)) =
        (sinkCalls (LogMessageHandler env g severity file2 line2 message_start2 str)).map
          (fun c => (c.level, c.args)) := by
  refine ⟨rfl, ?_⟩
  intro pool2
  by_cases hbreak : severity = LOG_FATAL → env.BeingDebugged = true → env.breakReturns 0 = true
  · cases htrim : trimNewline (augmentedMessage env severity str) with
    | none =>
      by_cases hfatal : severity = LOG_FATAL
      · by_cases hdbg : env.BeingDebugged = true
        · have hret := hbreak hfatal hdbg
          have hmsg : trimNewline str = none := by
            simpa [augmentedMessage, hfatal, hdbg] using htrim
          simp [LogMessageHandler, trimAndForward, sinkCalls, Run.after, hfatal, hdbg, hret,
            hmsg]
        · have hdbg2 : env.BeingDebugged = false := by simpa using hdbg
          have hmsg : trimNewline (str ++ env.stackTrace) = none := by
            simpa [augmentedMessage, hfatal, hdbg2] using htrim
          simp [LogMessageHandler, trimAndForward, sinkCalls, Run.after, hfatal, hdbg2, hmsg]
      · have hmsg : trimNewline str = none := by
          simpa [augmentedMessage, hfatal] using htrim
        simp [LogMessageHandler, trimAndForward, sinkCalls, hfatal, hmsg]
    | some trimmed =>
      rw [sinkCalls_LogMessageHandler env ⟨pool2, g.log_level_cutoff⟩ severity file1 line1
          message_start1 str trimmed htrim hbreak,
        sinkCalls_LogMessageHandler env g severity file2 line2 message_start2 str trimmed
          htrim hbreak]
      by_cases htest : GetApacheLogLevel severity ≤ g.log_level_cutoff ∨
          g.log_level_cutoff = kMaxInt <;>
        simp [htest, sinkCallOf]
  · have hfatal : severity = LOG_FATAL := by
      by_contra hcon
      exact hbreak (fun h => absurd h hcon)
    have hdbg : env.BeingDebugged = true := by
      by_contra hcon
      exact hbreak (fun _ h => absurd h hcon)
    have hret : env.breakReturns 0 = false := by
      by_contra hcon
      exact hbreak (fun _ _ => by simpa using hcon)
    simp [LogMessageHandler, sinkCalls, hfatal, hdbg, hret]

/-! ### Installation -/

/-- C16: `InstallLogMessageHandler(pool)` sets `log_pool` to `pool` and keeps the
cutoff; it makes exactly two calls, `SetLogItems(true, true, false, false)`
once and then `SetLogMessageHandler`, and no call of `SetMinLogLevel`; in the
state of the process the handler is registered, the log items are the four
flags, and the cutoff and the generic minimum log level are unchanged. -/
theorem InstallLogMessageHandler_effect (pool : Nat) (g : Globals) (l : Logging) :
    (InstallLogMessageHandler pool g).1.log_pool = pool ∧
    (InstallLogMessageHandler pool g).1.log_level_cutoff = g.log_level_cutoff ∧
    (InstallLogMessageHandler pool g).2 =
      [Effect.SetLogItems true true false false, Effect.SetLogMessageHandler] ∧
    (∀ level : Int, Effect.SetMinLogLevel level ∉ (InstallLogMessageHandler pool g).2) ∧
    step ⟨g, l⟩ (Op.Install pool) =
      some ⟨⟨pool, g.log_level_cutoff⟩, ⟨l.min_log_level, (true, true, false, false), true⟩⟩ := by
  refine ⟨rfl, rfl, rfl, ?_, rfl⟩
  intro level
  simp [InstallLogMessageHandler]

/-! ### The cutoff in the reachable states -/

/-- No call changes the cutoff. -/
theorem step_cutoff (s next : State) (op : Op) (hstep : step s op = some next) :
    next.globals.log_level_cutoff = s.globals.log_level_cutoff := by
  cases op with
  | Install pool =>
    simp only [step, Option.some.injEq] at hstep
    rw [← hstep]
    rfl
  | SetLevel apache_log_level vlog_level =>
    simp only [step, Option.some.injEq] at hstep
    rw [← hstep]
  | Handle env severity file line message_start str =>
    simp only [step] at hstep
    split at hstep
    · simp only [Option.some.injEq] at hstep
      rw [← hstep]
    · cases hstep
    · cases hstep

/-- No sequence of calls changes the cutoff. -/
theorem runOps_cutoff (ops : List Op) (s final : State) (hrun : runOps s ops = some final) :
    final.globals.log_level_cutoff = s.globals.log_level_cutoff := by
  induction ops generalizing s with
  | nil =>
    simp only [runOps, Option.some.injEq] at hrun
    rw [← hrun]
  | cons op ops ih =>
    simp only [runOps] at hrun
    cases hstep : step s op with
    | none => rw [hstep] at hrun; cases hrun
    | some next =>
      rw [hstep] at hrun
      rw [ih next hrun, step_cutoff s next op hstep]

/-- C17 (amended): in every state reachable from the initial one by calls of the
three functions the cutoff is `kMaxInt`; in such a state every invocation of
the handler that reaches the forwarding step (the message reaches the trim
step non-empty, the breakpoint of a debugged fatal message returns) makes
exactly one sink call; and `SetLoggingLevel` leaves the globals of the file,
hence every run of the handler, as they are. -/
theorem Reachable_cutoff_unset (l0 : Logging) (s : State) (hreach : Reachable l0 s) :
    s.globals.log_level_cutoff = kMaxInt ∧
    (∀ (env : Env) (severity : Int) (file : String) (line : Int) (message_start : Nat)
      (str : List Char),
      augmentedMessage env severity str ≠ [] →
      (augmentedMessage env severity str).length < SIZE_MOD →
      (severity = LOG_FATAL → env.BeingDebugged = true → env.breakReturns 0 = true) →
      (sinkCalls (LogMessageHandler env s.globals severity file line message_start
        str)).length = 1) ∧
    (∀ apache_log_level vlog_level : Int,
      ∃ next, step s (Op.SetLevel apache_log_level vlog_level) = some next ∧
        Reachable l0 next ∧ next.globals = s.globals ∧
        ∀ (env : Env) (severity : Int) (file : String) (line : Int) (message_start : Nat)
          (str : List Char),
          LogMessageHandler env next.globals severity file line message_start str =
            LogMessageHandler env s.globals severity file line message_start str) := by
  obtain ⟨ops, hops⟩ := hreach
  have hcut : s.globals.log_level_cutoff = kMaxInt := by
    rw [runOps_cutoff ops _ s hops]
    rfl
  refine ⟨hcut, ?_, ?_⟩
  · intro env severity file line message_start str hne hlen hbreak
    obtain ⟨trimmed, htrim, -⟩ := trimNewline_of_ne_nil _ hne hlen
    rw [sinkCalls_LogMessageHandler env s.globals severity file line message_start str trimmed
      htrim hbreak]
    simp [hcut]
  · intro apache_log_level vlog_level
    refine ⟨⟨s.globals, s.logging.applyAll (SetLoggingLevel apache_log_level vlog_level)⟩,
      rfl, ⟨ops ++ [Op.SetLevel apache_log_level vlog_level], ?_⟩, rfl, fun _ _ _ _ _ _ => rfl⟩
    have happ : ∀ (ops1 : List Op) (a b : State), runOps a ops1 = some b →
        runOps a (ops1 ++ [Op.SetLevel apache_log_level vlog_level]) =
          step b (Op.SetLevel apache_log_level vlog_level) := by
      intro ops1
      induction ops1 with
      | nil =>
        intro a b hab
        simp only [runOps, Option.some.injEq] at hab
        rw [← hab]
        simp [runOps, step]
      | cons op rest ih =>
        intro a b hab
        simp only [runOps, List.cons_append] at hab ⊢
        cases hstep : step a op with
        | none => rw [hstep] at hab; cases hab
        | some mid =>
          rw [hstep] at hab
          simp only []
          exact ih mid b hab
    rw [happ ops _ s hops]
    rfl

/-- C17 (witness): the state after an installation with pool 7, a
`SetLoggingLevel(APLOG_DEBUG, 2)` and a handled message `"hi\n"`. -/
theorem Reachable_cutoff_unset_witness :
    Reachable ⟨0, (false, false, false, false), false⟩
      ⟨⟨7, kMaxInt⟩, ⟨-2, (true, true, false, false), true⟩⟩ ∧
    (⟨⟨7, kMaxInt⟩, ⟨-2, (true, true, false, false), true⟩⟩ : State).globals.log_level_cutoff =
      kMaxInt ∧
    (sinkCalls (LogMessageHandler ⟨false, [], fun _ => false⟩
      (⟨⟨7, kMaxInt⟩, ⟨-2, (true, true, false, false), true⟩⟩ : State).globals (-1)
      "file.cc" 1 0 "hi\n".toList)).length = 1 :=
  ⟨⟨[Op.Install 7, Op.SetLevel APLOG_DEBUG 2,
      Op.Handle ⟨false, [], fun _ => false⟩ LOG_INFO "file.cc" 1 0 "hi\n".toList], by decide⟩,
    (Reachable_cutoff_unset ⟨0, (false, false, false, false), false⟩
      ⟨⟨7, kMaxInt⟩, ⟨-2, (true, true, false, false), true⟩⟩
      ⟨[Op.Install 7, Op.SetLevel APLOG_DEBUG 2,
        Op.Handle ⟨false, [], fun _ => false⟩ LOG_INFO "file.cc" 1 0 "hi\n".toList],
        by decide⟩).1,
    (Reachable_cutoff_unset ⟨0, (false, false, false, false), false⟩
      ⟨⟨7, kMaxInt⟩, ⟨-2, (true, true, false, false), true⟩⟩
      ⟨[Op.Install 7, Op.SetLevel APLOG_DEBUG 2,
        Op.Handle ⟨false, [], fun _ => false⟩ LOG_INFO "file.cc" 1 0 "hi\n".toList],
        by decide⟩).2.1 ⟨false, [], fun _ => false⟩ (-1) "file.cc" 1 0 "hi\n".toList
      (by decide) (by decide) (by decide)⟩

/-- C17 (counterexample): in the state reached by an installation with pool 7
and a `SetLoggingLevel(APLOG_DEBUG, 2)`, a fatal message `"x"` under a debugger
whose breakpoint does not return is not forwarded to the host sink. -/
theorem Reachable_cutoff_unset_breakpoint :
    Reachable ⟨0, (false, false, false, false), false⟩
      ⟨⟨7, kMaxInt⟩, ⟨-2, (true, true, false, false), true⟩⟩ ∧
    LogMessageHandler ⟨true, [], fun _ => false⟩
        (⟨⟨7, kMaxInt⟩, ⟨-2, (true, true, false, false), true⟩⟩ : State).globals LOG_FATAL
        "file.cc" 1 0 ['x'] =
      ⟨[Effect.BreakDebugger], Outcome.trapped⟩ ∧
    sinkCalls (LogMessageHandler ⟨true, [], fun _ => false⟩
        (⟨⟨7, kMaxInt⟩, ⟨-2, (true, true, false, false), true⟩⟩ : State).globals LOG_FATAL
        "file.cc" 1 0 ['x']) = [] :=
  ⟨⟨[Op.Install 7, Op.SetLevel APLOG_DEBUG 2], by decide⟩, by decide, by decide⟩

/-! ### The range of the severity mapper -/

/-- C18: for every integer severity `GetApacheLogLevel` returns one of ALERT,
CRIT, ERR, WARNING, NOTICE, never EMERG, INFO or DEBUG, and a level at most
NOTICE; on the severities from LOG_INFO to LOG_FATAL it reverses the order. -/
theorem GetApacheLogLevel_range (severity : Int) :
    (GetApacheLogLevel severity = APLOG_ALERT ∨ GetApacheLogLevel severity = APLOG_CRIT ∨
      GetApacheLogLevel severity = APLOG_ERR ∨ GetApacheLogLevel severity = APLOG_WARNING ∨
      GetApacheLogLevel severity = APLOG_NOTICE) ∧
    GetApacheLogLevel severity ≠ APLOG_EMERG ∧
    GetApacheLogLevel severity ≤ APLOG_NOTICE ∧
    GetApacheLogLevel severity ≠ APLOG_INFO ∧
    GetApacheLogLevel severity ≠ APLOG_DEBUG ∧
    ∀ s1 s2 : Int, LOG_INFO ≤ s1 → s1 ≤ s2 → s2 ≤ LOG_FATAL →
      GetApacheLogLevel s2 ≤ GetApacheLogLevel s1 := by
  have hcases : GetApacheLogLevel severity = APLOG_ALERT ∨
      GetApacheLogLevel severity = APLOG_CRIT ∨ GetApacheLogLevel severity = APLOG_ERR ∨
      GetApacheLogLevel severity = APLOG_WARNING ∨
      GetApacheLogLevel severity = APLOG_NOTICE := by
    unfold GetApacheLogLevel
    split_ifs <;> simp
  refine ⟨hcases, ?_, ?_, ?_, ?_, ?_⟩
  · rcases hcases with h | h | h | h | h <;> rw [h] <;> decide
  · rcases hcases with h | h | h | h | h <;> rw [h] <;> decide
  · rcases hcases with h | h | h | h | h <;> rw [h] <;> decide
  · rcases hcases with h | h | h | h | h <;> rw [h] <;> decide
  · intro s1 s2 h1 h12 h2
    unfold LOG_INFO at h1
    unfold LOG_FATAL at h2
    have hs1 : s1 = 0 ∨ s1 = 1 ∨ s1 = 2 ∨ s1 = 3 ∨ s1 = 4 := by omega
    have hs2 : s2 = 0 ∨ s2 = 1 ∨ s2 = 2 ∨ s2 = 3 ∨ s2 = 4 := by omega
    rcases hs1 with h | h | h | h | h <;> rcases hs2 with k | k | k | k | k <;>
      subst h <;> subst k <;> first | decide | (exfalso; omega)

/-- C18 (witness): the warning and the fatal severity, in this order. -/
theorem GetApacheLogLevel_range_witness :
    LOG_INFO ≤ LOG_WARNING ∧ LOG_WARNING ≤ LOG_FATAL ∧ LOG_FATAL ≤ LOG_FATAL ∧
    GetApacheLogLevel LOG_FATAL ≤ GetApacheLogLevel LOG_WARNING :=
  ⟨by decide, by decide, by decide,
    (GetApacheLogLevel_range 0).2.2.2.2.2 LOG_WARNING LOG_FATAL (by decide) (by decide)
      (by decide)⟩

/-! ### The two mappings composed -/

/-- The two mappings composed, where line 141 is defined: for every verbosity
`v`, `SetLoggingLevel` applied to the mapped host level of LOG_WARNING,
LOG_ERROR, LOG_ERROR_REPORT and LOG_FATAL installs that severity; applied to
the mapped host level of LOG_INFO it installs `min(LOG_INFO, -v)` for every
`int` `v` other than `INT_MIN`; and for each of the five severities the
minimum installed is at most the severity. -/
theorem SetLoggingLevel_GetApacheLogLevel (v : Int) :
    SetLoggingLevel (GetApacheLogLevel LOG_WARNING) v = [Effect.SetMinLogLevel LOG_WARNING] ∧
    SetLoggingLevel (GetApacheLogLevel LOG_ERROR) v = [Effect.SetMinLogLevel LOG_ERROR] ∧
    SetLoggingLevel (GetApacheLogLevel LOG_ERROR_REPORT) v =
      [Effect.SetMinLogLevel LOG_ERROR_REPORT] ∧
    SetLoggingLevel (GetApacheLogLevel LOG_FATAL) v = [Effect.SetMinLogLevel LOG_FATAL] ∧
    (IsInt v → v ≠ INT_MIN →
      SetLoggingLevel (GetApacheLogLevel LOG_INFO) v =
        [Effect.SetMinLogLevel (min LOG_INFO (-v))]) ∧
    ∀ s : Int,
      s = LOG_INFO ∨ s = LOG_WARNING ∨ s = LOG_ERROR ∨ s = LOG_ERROR_REPORT ∨ s = LOG_FATAL →
      ∃ installed, SetLoggingLevel (GetApacheLogLevel s) v = [Effect.SetMinLogLevel installed] ∧
        installed ≤ s := by
  have hinfo : SetLoggingLevel (GetApacheLogLevel LOG_INFO) v =
      [Effect.SetMinLogLevel (min LOG_INFO (negInt v))] :=
    SetLoggingLevel_default_eq (GetApacheLogLevel LOG_INFO) v (by decide)
  refine ⟨rfl, rfl, rfl, rfl, ?_, ?_⟩
  · intro hv hmin
    rw [hinfo, negInt_eq_neg v hv hmin]
  · intro s hs
    rcases hs with h | h | h | h | h
    · subst h
      exact ⟨min LOG_INFO (negInt v), hinfo, min_le_left _ _⟩
    · subst h; exact ⟨LOG_WARNING, rfl, le_refl _⟩
    · subst h; exact ⟨LOG_ERROR, rfl, le_refl _⟩
    · subst h; exact ⟨LOG_ERROR_REPORT, rfl, le_refl _⟩
    · subst h; exact ⟨LOG_FATAL, rfl, le_refl _⟩

/-- C19 (failing input): for the severity LOG_INFO and the `int` verbosity
`INT_MIN`, the mapped host level is NOTICE, the last row of the switch is
taken and line 141 negates `INT_MIN`, a signed overflow for which C++ defines
no value; the minimum installed is `min(LOG_INFO, -INT_MIN) = LOG_INFO` only if
that negation comes out non-negative. -/
theorem SetLoggingLevel_GetApacheLogLevel_overflow :
    GetApacheLogLevel LOG_INFO = APLOG_NOTICE ∧ IsInt INT_MIN ∧ ¬ negDefined INT_MIN ∧
    min LOG_INFO (-INT_MIN) = LOG_INFO ∧
    SetLoggingLevel (GetApacheLogLevel LOG_INFO) INT_MIN =
      [Effect.SetMinLogLevel (min LOG_INFO (negInt INT_MIN))] ∧
    ∀ x : Int, min LOG_INFO x = LOG_INFO ↔ 0 ≤ x := by
  refine ⟨by decide, by decide, by decide, by decide, rfl, ?_⟩
  intro x
  unfold LOG_INFO
  omega

end ModSpdy
